import Mathlib

/-!
Verification development for the `alexandermake/wallet` repository: browser
console scripts that connect the Phantom, Solflare and MetaMask wallet
extensions to Cosmos-SDK chains (Nolus `pirin-1`, Neutron `pion-1`), derive a
bech32 address from the wallet public key, assemble a protobuf bank-transfer
transaction, have the wallet sign it and broadcast it over JSON-RPC.

The sources embedded here are
  * `src/solfare.ts`            (namespace `Solfare`),
  * `src/phantom_not_working.ts`, which concatenates two scripts
    (namespaces `Phantom` and `Phantom2`; their shared Nolus transaction
    builders live in namespace `NolusTx` because the two scripts and
    `solfare.ts` duplicate them verbatim up to the default memo),
  * the MetaMask/Neutron script (namespace `Metamask`).

Bytes are modelled as `List Nat` (each entry a byte value), strings as Lean
`String`.  External calls (wallet prompts, RPC fetches, `Date.now()`) are
modelled as fields of an environment record; each script function becomes a
pure Lean function of that environment which additionally returns the trace of
external calls it makes.  The byte-level library routines the scripts lean on
(`@noble/hashes` sha256 and ripemd160, the `bech32` package, `@cosmjs/encoding`
hex/base64, `cosmjs-types` protobuf encoders, `JSON.stringify`) are implemented
concretely below, following the published algorithms those libraries implement,
so every definition is executable.
-/

/-! ## JavaScript-style helpers -/

/-- Model of the JavaScript expression `a || d` for an optional string
argument `a` with default `d`: `undefined` and the empty string are falsy. -/
def jsOr (a : Option String) (d : String) : String :=
  match a with
  | none => d
  | some s => if s = "" then d else s

/-- Model of `a || b` where both operands are possibly-undefined strings
(used for `result.txhash || result.hash`). -/
def jsOrOpt (a b : Option String) : Option String :=
  match a with
  | none => b
  | some s => if s = "" then b else some s

/-- Decimal digit loop, structurally recursive on a fuel bound (initialised
to the number itself, which always suffices since `n / 10 < n`). -/
def natDigitsAux : Nat → Nat → List Nat
  | 0, n => [n % 10]
  | fuel + 1, n =>
    if n < 10 then [n] else natDigitsAux fuel (n / 10) ++ [n % 10]

/-- Decimal digits of a natural number, most significant first. -/
def natDigits (n : Nat) : List Nat :=
  natDigitsAux n n

/-- Model of JavaScript `Number.prototype.toString()` on a (small enough,
hence exactly represented) non-negative integer: its decimal digit string. -/
def natToString (n : Nat) : String :=
  ⟨(natDigits n).map (fun d => Char.ofNat (48 + d))⟩

/-- Model of JavaScript `parseInt(s)` (radix 10): skip leading spaces, read an
optional sign and then the longest digit run; `none` models `NaN`. -/
def parseIntJs (s : String) : Option Int :=
  let cs := s.data.dropWhile (fun c => c = ' ')
  let neg := decide (cs.head? = some '-')
  let cs := if cs.head? = some '+' ∨ cs.head? = some '-' then cs.tail else cs
  let ds := cs.takeWhile Char.isDigit
  if ds.isEmpty then none
  else
    let v : Nat := ds.foldl (fun a c => a * 10 + (c.toNat - 48)) 0
    some (if neg then -(v : Int) else (v : Int))

/-- UTF-8 encoding of one scalar value (Lean `Char` is always a scalar). -/
def utf8Char (c : Char) : List Nat :=
  let n := c.toNat
  if n < 128 then [n]
  else if n < 2048 then [192 + n / 64, 128 + n % 64]
  else if n < 65536 then [224 + n / 4096, 128 + n / 64 % 64, 128 + n % 64]
  else [240 + n / 262144, 128 + n / 4096 % 64, 128 + n / 64 % 64, 128 + n % 64]

/-- UTF-8 bytes of a string (model of `TextEncoder.encode` / `toUtf8Bytes`). -/
def utf8 (s : String) : List Nat :=
  (s.data.map utf8Char).flatten

/-- UTF-8 decoding loop with U+FFFD replacement, as performed by
`Buffer.prototype.toString()` (WHATWG decoder): an invalid leading byte is
replaced and skipped, an invalid continuation byte is not consumed.  The fuel
argument only serves structural termination; every step consumes at least one
byte, so fuel initialised to the list length never runs out. -/
def utf8DecodeAux : Nat → List Nat → List Char
  | _, [] => []
  | 0, _ => []
  | fuel + 1, b :: rest =>
    if b < 128 then Char.ofNat b :: utf8DecodeAux fuel rest
    else if 194 ≤ b ∧ b ≤ 223 then
      match rest with
      | c1 :: rest1 =>
        if 128 ≤ c1 ∧ c1 ≤ 191 then
          Char.ofNat ((b - 192) * 64 + (c1 - 128)) :: utf8DecodeAux fuel rest1
        else Char.ofNat 65533 :: utf8DecodeAux fuel rest
      | [] => [Char.ofNat 65533]
    else if 224 ≤ b ∧ b ≤ 239 then
      match rest with
      | c1 :: rest1 =>
        let lo1 := if b = 224 then 160 else 128
        let hi1 := if b = 237 then 159 else 191
        if lo1 ≤ c1 ∧ c1 ≤ hi1 then
          match rest1 with
          | c2 :: rest2 =>
            if 128 ≤ c2 ∧ c2 ≤ 191 then
              Char.ofNat ((b - 224) * 4096 + (c1 - 128) * 64 + (c2 - 128)) ::
                utf8DecodeAux fuel rest2
            else Char.ofNat 65533 :: utf8DecodeAux fuel rest1
          | [] => [Char.ofNat 65533]
        else Char.ofNat 65533 :: utf8DecodeAux fuel rest
      | [] => [Char.ofNat 65533]
    else if 240 ≤ b ∧ b ≤ 244 then
      match rest with
      | c1 :: rest1 =>
        let lo1 := if b = 240 then 144 else 128
        let hi1 := if b = 244 then 143 else 191
        if lo1 ≤ c1 ∧ c1 ≤ hi1 then
          match rest1 with
          | c2 :: rest2 =>
            if 128 ≤ c2 ∧ c2 ≤ 191 then
              match rest2 with
              | c3 :: rest3 =>
                if 128 ≤ c3 ∧ c3 ≤ 191 then
                  Char.ofNat ((b - 240) * 262144 + (c1 - 128) * 4096 +
                    (c2 - 128) * 64 + (c3 - 128)) :: utf8DecodeAux fuel rest3
                else Char.ofNat 65533 :: utf8DecodeAux fuel rest2
              | [] => [Char.ofNat 65533]
            else Char.ofNat 65533 :: utf8DecodeAux fuel rest1
          | [] => [Char.ofNat 65533]
        else Char.ofNat 65533 :: utf8DecodeAux fuel rest
      | [] => [Char.ofNat 65533]
    else Char.ofNat 65533 :: utf8DecodeAux fuel rest

/-- UTF-8 decoding of a byte list with U+FFFD replacement. -/
def utf8DecodeBytes (l : List Nat) : List Char :=
  utf8DecodeAux l.length l

/-- Model of `Buffer.from(bytes).toString()`: lossy UTF-8 decoding. -/
def bufferToString (bytes : List Nat) : String :=
  ⟨utf8DecodeBytes bytes⟩

/-- Lowercase hex digit for a value below 16. -/
def hexDigit (n : Nat) : Char :=
  if n < 10 then Char.ofNat (48 + n) else Char.ofNat (87 + n)

/-- Model of `@cosmjs/encoding` `toHex`: lowercase hex, two digits a byte. -/
def toHex (bytes : List Nat) : String :=
  ⟨(bytes.map (fun b => [hexDigit (b / 16), hexDigit (b % 16)])).flatten⟩

/-- Value of one hex digit, accepting both cases; `none` on other input. -/
def hexVal (c : Char) : Option Nat :=
  if 48 ≤ c.toNat ∧ c.toNat ≤ 57 then some (c.toNat - 48)
  else if 97 ≤ c.toNat ∧ c.toNat ≤ 102 then some (c.toNat - 87)
  else if 65 ≤ c.toNat ∧ c.toNat ≤ 70 then some (c.toNat - 55)
  else none

/-- Parse an even-length hex character list into bytes. -/
def fromHexChars : List Char → Option (List Nat)
  | [] => some []
  | [_] => none
  | c1 :: c2 :: rest =>
    match hexVal c1, hexVal c2, fromHexChars rest with
    | some h, some l, some bs => some ((h * 16 + l) :: bs)
    | _, _, _ => none

/-- Model of `@cosmjs/encoding` `fromHex`: `none` models the thrown error on
odd length or an invalid digit. -/
def fromHex (s : String) : Option (List Nat) :=
  fromHexChars s.data

/-- The base64 alphabet as a character list. -/
def base64Alphabet : List Char :=
  "ABCDEFGHIJKLMNOPQRSTUVWXYZabcdefghijklmnopqrstuvwxyz0123456789+/".data

/-- Character of one 6-bit group. -/
def base64Char (n : Nat) : Char :=
  base64Alphabet.getD n 'A'

/-- Base64 encoding of a byte list, three bytes at a time with `=` padding
(model of `@cosmjs/encoding` `toBase64`). -/
def toBase64Chars : List Nat → List Char
  | [] => []
  | [b0] =>
    [base64Char (b0 / 4), base64Char (b0 % 4 * 16), '=', '=']
  | [b0, b1] =>
    [base64Char (b0 / 4), base64Char (b0 % 4 * 16 + b1 / 16),
     base64Char (b1 % 16 * 4), '=']
  | b0 :: b1 :: b2 :: rest =>
    base64Char (b0 / 4) :: base64Char (b0 % 4 * 16 + b1 / 16) ::
      base64Char (b1 % 16 * 4 + b2 / 64) :: base64Char (b2 % 64) ::
      toBase64Chars rest

/-- Model of `@cosmjs/encoding` `toBase64`. -/
def toBase64 (bytes : List Nat) : String :=
  ⟨toBase64Chars bytes⟩

/-- Index of a character in the base64 alphabet. -/
def base64Val (c : Char) : Option Nat :=
  let i := (base64Alphabet.indexOf c)
  if i < 64 then some i else none

/-- Decode base64 characters (padding already stripped). -/
def fromBase64Chars : List Char → Option (List Nat)
  | [] => some []
  | [_] => none
  | [c0, c1] =>
    match base64Val c0, base64Val c1 with
    | some v0, some v1 => some [v0 * 4 + v1 / 16]
    | _, _ => none
  | [c0, c1, c2] =>
    match base64Val c0, base64Val c1, base64Val c2 with
    | some v0, some v1, some v2 => some [v0 * 4 + v1 / 16, v1 % 16 * 16 + v2 / 4]
    | _, _, _ => none
  | c0 :: c1 :: c2 :: c3 :: rest =>
    match base64Val c0, base64Val c1, base64Val c2, base64Val c3,
        fromBase64Chars rest with
    | some v0, some v1, some v2, some v3, some bs =>
      some ((v0 * 4 + v1 / 16) :: (v1 % 16 * 16 + v2 / 4) :: (v2 % 4 * 64 + v3) :: bs)
    | _, _, _, _, _ => none

/-- Model of `@cosmjs/encoding` `fromBase64` on its accepted inputs; the
scripts only apply it to `toBase64` output, so `none` never arises there. -/
def fromBase64 (s : String) : List Nat :=
  (fromBase64Chars (s.data.takeWhile (fun c => c ≠ '='))).getD []

/-- Model of JavaScript `String.prototype.slice(start, end)` with possibly
negative indices. -/
def jsStrSlice (s : String) (start stop : Int) : String :=
  let len : Int := s.data.length
  let rel : Int → Nat := fun i =>
    if i < 0 then (max (len + i) 0).toNat else (min i len).toNat
  let a := rel start
  let b := rel stop
  ⟨(s.data.drop a).take (b - a)⟩

/-! ## Protobuf wire encoding (cosmjs-types / protobufjs writer semantics)

The scripts build their transactions with the generated `cosmjs-types`
encoders (`MsgSend.encode`, `TxBody.encode`, `AuthInfo.encode`,
`SignDoc.encode`, `TxRaw.encode`, `PubKey.encode`).  Those encoders write
fields in declaration order, skip fields holding their default value
(empty string, empty bytes, zero) and always emit repeated elements; the
numeric literals below are the same tag bytes the generated code passes to
`writer.uint32(...)`. -/

/-- Varint loop, structurally recursive on a fuel bound (initialised to the
number itself, which always suffices since `n / 128 < n`). -/
def varintAux : Nat → Nat → List Nat
  | 0, n => [n % 128]
  | fuel + 1, n =>
    if n < 128 then [n] else (n % 128 + 128) :: varintAux fuel (n / 128)

/-- Little-endian base-128 varint of a natural number. -/
def varint (n : Nat) : List Nat :=
  varintAux n n

/-- A length-delimited field: tag byte(s), payload length, payload. -/
def lenDelim (tag : Nat) (payload : List Nat) : List Nat :=
  varint tag ++ varint payload.length ++ payload

/-- A string field, skipped when empty (`if (message.f !== "")`). -/
def stringField (tag : Nat) (s : String) : List Nat :=
  if s = "" then [] else lenDelim tag (utf8 s)

/-- A bytes field, skipped when empty (`if (message.f.length !== 0)`). -/
def bytesField (tag : Nat) (b : List Nat) : List Nat :=
  if b = [] then [] else lenDelim tag b

/-- A varint-valued field, skipped when zero. -/
def uintField (tag : Nat) (n : Nat) : List Nat :=
  if n = 0 then [] else varint tag ++ varint n

/-- Cosmos coin: `cosmos.base.v1beta1.Coin`. -/
structure Coin where
  denom : String
  amount : String
deriving Repr, DecidableEq

/-- Encoder of `Coin` (denom tag 10, amount tag 18). -/
def Coin.encode (c : Coin) : List Nat :=
  stringField 10 c.denom ++ stringField 18 c.amount

/-- Bank transfer message: `cosmos.bank.v1beta1.MsgSend`. -/
structure MsgSend where
  fromAddress : String
  toAddress : String
  amount : List Coin
deriving Repr, DecidableEq

/-- Encoder of `MsgSend` (fromAddress 10, toAddress 18, amount 26). -/
def MsgSend.encode (m : MsgSend) : List Nat :=
  stringField 10 m.fromAddress ++ stringField 18 m.toAddress ++
    (m.amount.map (fun c => lenDelim 26 c.encode)).flatten

/-- Protobuf `Any`: a type URL plus opaque encoded bytes. -/
structure AnyProto where
  typeUrl : String
  value : List Nat
deriving Repr, DecidableEq

/-- Encoder of `Any` (typeUrl 10, value 18). -/
def AnyProto.encode (a : AnyProto) : List Nat :=
  stringField 10 a.typeUrl ++ bytesField 18 a.value

/-- Transaction body: `cosmos.tx.v1beta1.TxBody`; the scripts only populate
`messages` and `memo`, the remaining fields keep their (skipped) defaults. -/
structure TxBody where
  messages : List AnyProto
  memo : String
deriving Repr, DecidableEq

/-- Encoder of `TxBody` (messages 10, memo 18). -/
def TxBody.encode (b : TxBody) : List Nat :=
  (b.messages.map (fun m => lenDelim 10 m.encode)).flatten ++
    stringField 18 b.memo

/-- Value of `SignMode.SIGN_MODE_DIRECT` in
`cosmos.tx.signing.v1beta1.SignMode`. -/
def SIGN_MODE_DIRECT : Nat := 1

/-- Value of `SignMode.SIGN_MODE_EIP_191` in
`cosmos.tx.signing.v1beta1.SignMode`. -/
def SIGN_MODE_EIP_191 : Nat := 191

/-- Single-signer mode info: `cosmos.tx.v1beta1.ModeInfo.Single`. -/
structure ModeInfoSingle where
  mode : Nat
deriving Repr, DecidableEq

/-- Encoder of `ModeInfo.Single` (mode: varint field 1, tag 8). -/
def ModeInfoSingle.encode (m : ModeInfoSingle) : List Nat :=
  uintField 8 m.mode

/-- Mode info: `cosmos.tx.v1beta1.ModeInfo` (only `single` is used here). -/
structure ModeInfo where
  single : Option ModeInfoSingle
deriving Repr, DecidableEq

/-- Encoder of `ModeInfo` (single 10, emitted when present). -/
def ModeInfo.encode (m : ModeInfo) : List Nat :=
  match m.single with
  | none => []
  | some s => lenDelim 10 s.encode

/-- Signer info: `cosmos.tx.v1beta1.SignerInfo`. -/
structure SignerInfo where
  publicKey : Option AnyProto
  modeInfo : Option ModeInfo
  sequence : Nat
deriving Repr, DecidableEq

/-- Encoder of `SignerInfo` (publicKey 10, modeInfo 18, sequence 24). -/
def SignerInfo.encode (s : SignerInfo) : List Nat :=
  (match s.publicKey with
   | none => []
   | some pk => lenDelim 10 pk.encode) ++
  (match s.modeInfo with
   | none => []
   | some mi => lenDelim 18 mi.encode) ++
  uintField 24 s.sequence

/-- Fee: `cosmos.tx.v1beta1.Fee`. -/
structure Fee where
  amount : List Coin
  gasLimit : Nat
  payer : String
  granter : String
deriving Repr, DecidableEq

/-- Encoder of `Fee` (amount 10, gasLimit 16, payer 26, granter 34). -/
def Fee.encode (f : Fee) : List Nat :=
  (f.amount.map (fun c => lenDelim 10 c.encode)).flatten ++
    uintField 16 f.gasLimit ++ stringField 26 f.payer ++
    stringField 34 f.granter

/-- Auth info: `cosmos.tx.v1beta1.AuthInfo`. -/
structure AuthInfo where
  signerInfos : List SignerInfo
  fee : Option Fee
deriving Repr, DecidableEq

/-- Encoder of `AuthInfo` (signerInfos 10, fee 18). -/
def AuthInfo.encode (a : AuthInfo) : List Nat :=
  (a.signerInfos.map (fun s => lenDelim 10 s.encode)).flatten ++
  (match a.fee with
   | none => []
   | some f => lenDelim 18 f.encode)

/-- Sign document: `cosmos.tx.v1beta1.SignDoc` — the canonical
`SIGN_MODE_DIRECT` signing payload. -/
structure SignDoc where
  bodyBytes : List Nat
  authInfoBytes : List Nat
  chainId : String
  accountNumber : Nat
deriving Repr, DecidableEq

/-- Encoder of `SignDoc` (bodyBytes 10, authInfoBytes 18, chainId 26,
accountNumber 32). -/
def SignDoc.encode (d : SignDoc) : List Nat :=
  bytesField 10 d.bodyBytes ++ bytesField 18 d.authInfoBytes ++
    stringField 26 d.chainId ++ uintField 32 d.accountNumber

/-- Raw transaction: `cosmos.tx.v1beta1.TxRaw`. -/
structure TxRaw where
  bodyBytes : List Nat
  authInfoBytes : List Nat
  signatures : List (List Nat)
deriving Repr, DecidableEq

/-- Encoder of `TxRaw` (bodyBytes 10, authInfoBytes 18, signatures 26). -/
def TxRaw.encode (t : TxRaw) : List Nat :=
  bytesField 10 t.bodyBytes ++ bytesField 18 t.authInfoBytes ++
    (t.signatures.map (fun s => lenDelim 26 s)).flatten

/-- Encoder of `cosmos.crypto.ed25519.PubKey` and
`cosmos.crypto.secp256k1.PubKey` (both consist of one bytes field,
tag 10): `PubKey.encode({ key }).finish()`. -/
def PubKeyProto.encode (key : List Nat) : List Nat :=
  bytesField 10 key

/-! ## SHA-256 (model of `@noble/hashes/sha256`, FIPS 180-4) -/

/-- Truncation to a 32-bit word. -/
def w32 (n : Nat) : Nat := n % 4294967296

/-- Right rotation of a 32-bit word. -/
def rotr32 (n x : Nat) : Nat :=
  (x >>> n) ||| w32 (x <<< (32 - n))

/-- Left rotation of a 32-bit word. -/
def rotl32 (n x : Nat) : Nat :=
  w32 (x <<< n) ||| (x >>> (32 - n))

/-- The 64 SHA-256 round constants (FIPS 180-4, written in decimal). -/
def sha256K : List Nat :=
  [1116352408, 1899447441, 3049323471, 3921009573, 961987163,
   1508970993, 2453635748, 2870763221, 3624381080, 310598401,
   607225278, 1426881987, 1925078388, 2162078206, 2614888103,
   3248222580, 3835390401, 4022224774, 264347078, 604807628,
   770255983, 1249150122, 1555081692, 1996064986, 2554220882,
   2821834349, 2952996808, 3210313671, 3336571891, 3584528711,
   113926993, 338241895, 666307205, 773529912, 1294757372,
   1396182291, 1695183700, 1986661051, 2177026350, 2456956037,
   2730485921, 2820302411, 3259730800, 3345764771, 3516065817,
   3600352804, 4094571909, 275423344, 430227734, 506948616,
   659060556, 883997877, 958139571, 1322822218, 1537002063,
   1747873779, 1955562222, 2024104815, 2227730452, 2361852424,
   2428436474, 2756734187, 3204031479, 3329325298]

/-- The SHA-256 initial hash state (FIPS 180-4, written in decimal). -/
def sha256H0 : List Nat :=
  [1779033703, 3144134277, 1013904242, 2773480762,
   1359893119, 2600822924, 528734635, 1541459225]

/-- Merkle–Damgård padding shared by SHA-256 (big-endian length). -/
def shaPad (msg : List Nat) : List Nat :=
  let l := msg.length
  let z := (119 - l % 64) % 64
  let bitLen := l * 8
  msg ++ [128] ++ List.replicate z 0 ++
    [bitLen / 2 ^ 56 % 256, bitLen / 2 ^ 48 % 256, bitLen / 2 ^ 40 % 256,
     bitLen / 2 ^ 32 % 256, bitLen / 2 ^ 24 % 256, bitLen / 2 ^ 16 % 256,
     bitLen / 2 ^ 8 % 256, bitLen % 256]

/-- Big-endian grouping of bytes into 32-bit words. -/
def bytesToWordsBE : List Nat → List Nat
  | a :: b :: c :: d :: rest =>
    (a * 2 ^ 24 + b * 2 ^ 16 + c * 2 ^ 8 + d) :: bytesToWordsBE rest
  | _ => []

/-- Big-endian bytes of a list of 32-bit words. -/
def wordsToBytesBE (ws : List Nat) : List Nat :=
  (ws.map (fun x => [x / 2 ^ 24 % 256, x / 2 ^ 16 % 256, x / 2 ^ 8 % 256,
    x % 256])).flatten

/-- Message schedule extension: append `n` further words to `w`. -/
def sha256Extend : List Nat → Nat → List Nat
  | w, 0 => w
  | w, n + 1 =>
    let l := w.length
    let w15 := w.getD (l - 15) 0
    let w2 := w.getD (l - 2) 0
    let s0 := rotr32 7 w15 ^^^ rotr32 18 w15 ^^^ (w15 >>> 3)
    let s1 := rotr32 17 w2 ^^^ rotr32 19 w2 ^^^ (w2 >>> 10)
    sha256Extend (w ++ [w32 (w.getD (l - 16) 0 + s0 + w.getD (l - 7) 0 + s1)]) n

/-- One SHA-256 compression round on the eight-word working state. -/
def sha256Round (st : List Nat) (kw : Nat × Nat) : List Nat :=
  match st with
  | [a, b, c, d, e, f, g, h] =>
    let S1 := rotr32 6 e ^^^ rotr32 11 e ^^^ rotr32 25 e
    let ch := (e &&& f) ^^^ ((e ^^^ 4294967295) &&& g)
    let t1 := w32 (h + S1 + ch + kw.1 + kw.2)
    let S0 := rotr32 2 a ^^^ rotr32 13 a ^^^ rotr32 22 a
    let mj := (a &&& b) ^^^ (a &&& c) ^^^ (b &&& c)
    let t2 := w32 (S0 + mj)
    [w32 (t1 + t2), a, b, c, w32 (d + t1), e, f, g]
  | other => other

/-- Process the 16-word blocks of a padded message; the fuel (initialised to
the word count, which always suffices) only serves structural recursion. -/
def sha256Blocks : Nat → List Nat → List Nat → List Nat
  | _, h, [] => h
  | 0, h, _ => h
  | fuel + 1, h, w0 :: rest =>
    let w := sha256Extend ((w0 :: rest).take 16) 48
    let st := (sha256K.zip w).foldl sha256Round h
    let h' := (h.zip st).map (fun p => w32 (p.1 + p.2))
    sha256Blocks fuel h' (rest.drop 15)

/-- SHA-256 digest of a byte list (32 bytes). -/
def sha256 (msg : List Nat) : List Nat :=
  let ws := bytesToWordsBE (shaPad msg)
  wordsToBytesBE (sha256Blocks ws.length sha256H0 ws)

/-! ## RIPEMD-160 (model of `@noble/hashes/ripemd160`) -/

/-- Little-endian grouping of bytes into 32-bit words. -/
def bytesToWordsLE : List Nat → List Nat
  | a :: b :: c :: d :: rest =>
    (a + b * 2 ^ 8 + c * 2 ^ 16 + d * 2 ^ 24) :: bytesToWordsLE rest
  | _ => []

/-- Little-endian bytes of a list of 32-bit words. -/
def wordsToBytesLE (ws : List Nat) : List Nat :=
  (ws.map (fun x => [x % 256, x / 2 ^ 8 % 256, x / 2 ^ 16 % 256,
    x / 2 ^ 24 % 256])).flatten

/-- RIPEMD padding: like `shaPad` but with a little-endian bit length. -/
def ripemdPad (msg : List Nat) : List Nat :=
  let l := msg.length
  let z := (119 - l % 64) % 64
  let bitLen := l * 8
  msg ++ [128] ++ List.replicate z 0 ++
    [bitLen % 256, bitLen / 2 ^ 8 % 256, bitLen / 2 ^ 16 % 256,
     bitLen / 2 ^ 24 % 256, bitLen / 2 ^ 32 % 256, bitLen / 2 ^ 40 % 256,
     bitLen / 2 ^ 48 % 256, bitLen / 2 ^ 56 % 256]

/-- The RIPEMD-160 selection function for round `j / 16`. -/
def ripemdF (j x y z : Nat) : Nat :=
  if j < 16 then x ^^^ y ^^^ z
  else if j < 32 then (x &&& y) ||| ((x ^^^ 4294967295) &&& z)
  else if j < 48 then (x ||| (y ^^^ 4294967295)) ^^^ z
  else if j < 64 then (x &&& z) ||| (y &&& (z ^^^ 4294967295))
  else x ^^^ (y ||| (z ^^^ 4294967295))

/-- Left-line round constants. -/
def ripemdK (j : Nat) : Nat :=
  if j < 16 then 0 else if j < 32 then 0x5a827999
  else if j < 48 then 0x6ed9eba1 else if j < 64 then 0x8f1bbcdc
  else 0xa953fd4e

/-- Right-line round constants. -/
def ripemdK' (j : Nat) : Nat :=
  if j < 16 then 0x50a28be6 else if j < 32 then 0x5c4dd124
  else if j < 48 then 0x6d703ef3 else if j < 64 then 0x7a6d76e9
  else 0

/-- Left-line message word order. -/
def ripemdR : List Nat :=
  [0, 1, 2, 3, 4, 5, 6, 7, 8, 9, 10, 11, 12, 13, 14, 15,
   7, 4, 13, 1, 10, 6, 15, 3, 12, 0, 9, 5, 2, 14, 11, 8,
   3, 10, 14, 4, 9, 15, 8, 1, 2, 7, 0, 6, 13, 11, 5, 12,
   1, 9, 11, 10, 0, 8, 12, 4, 13, 3, 7, 15, 14, 5, 6, 2,
   4, 0, 5, 9, 7, 12, 2, 10, 14, 1, 3, 8, 11, 6, 15, 13]

/-- Right-line message word order. -/
def ripemdR' : List Nat :=
  [5, 14, 7, 0, 9, 2, 11, 4, 13, 6, 15, 8, 1, 10, 3, 12,
   6, 11, 3, 7, 0, 13, 5, 10, 14, 15, 8, 12, 4, 9, 1, 2,
   15, 5, 1, 3, 7, 14, 6, 9, 11, 8, 12, 2, 10, 0, 4, 13,
   8, 6, 4, 1, 3, 11, 15, 0, 5, 12, 2, 13, 9, 7, 10, 14,
   12, 15, 10, 4, 1, 5, 8, 7, 6, 2, 13, 14, 0, 3, 9, 11]

/-- Left-line rotation amounts. -/
def ripemdS : List Nat :=
  [11, 14, 15, 12, 5, 8, 7, 9, 11, 13, 14, 15, 6, 7, 9, 8,
   7, 6, 8, 13, 11, 9, 7, 15, 7, 12, 15, 9, 11, 7, 13, 12,
   11, 13, 6, 7, 14, 9, 13, 15, 14, 8, 13, 6, 5, 12, 7, 5,
   11, 12, 14, 15, 14, 15, 9, 8, 9, 14, 5, 6, 8, 6, 5, 12,
   9, 15, 5, 11, 6, 8, 13, 12, 5, 12, 13, 14, 11, 8, 5, 6]

/-- Right-line rotation amounts. -/
def ripemdS' : List Nat :=
  [8, 9, 9, 11, 13, 15, 15, 5, 7, 7, 8, 11, 14, 14, 12, 6,
   9, 13, 15, 7, 12, 8, 9, 11, 7, 7, 12, 7, 6, 15, 13, 11,
   9, 7, 15, 11, 8, 6, 6, 14, 12, 13, 5, 14, 13, 13, 7, 5,
   15, 5, 8, 11, 14, 14, 6, 14, 6, 9, 12, 9, 12, 5, 15, 8,
   8, 5, 12, 9, 12, 5, 14, 6, 8, 13, 6, 5, 15, 13, 11, 11]

/-- The RIPEMD-160 initial state. -/
def ripemdH0 : List Nat :=
  [0x67452301, 0xefcdab89, 0x98badcfe, 0x10325476, 0xc3d2e1f0]

/-- One step of one RIPEMD-160 line; `fj` is the function index for step `j`,
`k` its constant, `ri`/`si` message index and rotation. -/
def ripemdStep (x : List Nat) (fj k ri si : Nat) (st : List Nat) : List Nat :=
  match st with
  | [a, b, c, d, e] =>
    let t := w32 (rotl32 si (w32 (a + ripemdF fj b c d + x.getD ri 0 + k)) + e)
    [e, t, b, rotl32 10 c, d]
  | other => other

/-- Process one 16-word block of RIPEMD-160: run both lines and mix. -/
def ripemdBlock (h : List Nat) (x : List Nat) : List Nat :=
  let left := (List.range 80).foldl
    (fun st j => ripemdStep x j (ripemdK j) (ripemdR.getD j 0) (ripemdS.getD j 0) st) h
  let right := (List.range 80).foldl
    (fun st j => ripemdStep x (79 - j) (ripemdK' j) (ripemdR'.getD j 0) (ripemdS'.getD j 0) st) h
  match h, left, right with
  | [h0, h1, h2, h3, h4], [al, bl, cl, dl, el], [ar, br, cr, dr, er] =>
    [w32 (h1 + cl + dr), w32 (h2 + dl + er), w32 (h3 + el + ar),
     w32 (h4 + al + br), w32 (h0 + bl + cr)]
  | _, _, _ => h

/-- Process the 16-word blocks of a padded RIPEMD message; the fuel
(initialised to the word count) only serves structural recursion. -/
def ripemdBlocks : Nat → List Nat → List Nat → List Nat
  | _, h, [] => h
  | 0, h, _ => h
  | fuel + 1, h, w0 :: rest =>
    ripemdBlocks fuel (ripemdBlock h ((w0 :: rest).take 16)) (rest.drop 15)

/-- RIPEMD-160 digest of a byte list (20 bytes). -/
def ripemd160 (msg : List Nat) : List Nat :=
  let ws := bytesToWordsLE (ripemdPad msg)
  wordsToBytesLE (ripemdBlocks ws.length ripemdH0 ws)

/-! ## Bech32 (model of the npm `bech32` package) -/

/-- The bech32 data alphabet. -/
def bech32Alphabet : List Char :=
  "qpzry9x8gf2tvdw0s3jn54khce6mua7l".data

/-- One step of the bech32 checksum LFSR (`polymodStep` in the package). -/
def polymodStep (pre : Nat) : Nat :=
  let b := pre >>> 25
  ((pre &&& 0x1ffffff) <<< 5) ^^^
    (if b &&& 1 = 1 then 0x3b6a57b2 else 0) ^^^
    (if b >>> 1 &&& 1 = 1 then 0x26508e6d else 0) ^^^
    (if b >>> 2 &&& 1 = 1 then 0x1ea119fa else 0) ^^^
    (if b >>> 3 &&& 1 = 1 then 0x3d4233dd else 0) ^^^
    (if b >>> 4 &&& 1 = 1 then 0x2a1462b3 else 0)

/-- Checksum state after absorbing the human-readable part (`prefixChk`);
the scripts only pass the in-range lowercase constants `"nolus"` and
`"neutron"`, so the package's character-range rejection never fires. -/
def hrpChk (hrp : String) : Nat :=
  let c1 := hrp.data.foldl (fun chk c => polymodStep chk ^^^ (c.toNat >>> 5)) 1
  hrp.data.foldl (fun chk c => polymodStep chk ^^^ (c.toNat &&& 31))
    (polymodStep c1)

/-- Emit the 5-bit groups hidden in `value` while at least 5 bits remain;
returns the groups (most significant first) and the leftover bit count. -/
def emitWords (value : Nat) : Nat → List Nat × Nat
  | bits + 5 =>
    let p := emitWords value bits
    (((value >>> bits) &&& 31) :: p.1, p.2)
  | bits => ([], bits)

/-- Regroup bytes into 5-bit words, accumulating `(value, bits)` exactly like
the package's `convert(data, 8, 5, true)`. -/
def toWordsAux : List Nat → Nat → Nat → List Nat
  | [], value, bits =>
    if bits > 0 then [(value <<< (5 - bits)) &&& 31] else []
  | d :: rest, value, bits =>
    let v := (value <<< 8) ||| d
    let p := emitWords v (bits + 8)
    p.1 ++ toWordsAux rest v p.2

/-- Model of `bech32.toWords`: 8-bit bytes to padded 5-bit groups. -/
def bech32ToWords (data : List Nat) : List Nat :=
  toWordsAux data 0 0

/-- Model of `bech32.encode hrp words`: human-readable part, separator `1`,
data characters, six checksum characters.  The scripts' inputs stay far below
the 90-character limit the package enforces. -/
def bech32Encode (hrp : String) (words : List Nat) : String :=
  let chk := words.foldl (fun c x => polymodStep c ^^^ x) (hrpChk hrp)
  let chk := polymodStep (polymodStep (polymodStep (polymodStep
    (polymodStep (polymodStep chk))))) ^^^ 1
  hrp ++ "1" ++
    ⟨words.map (fun x => bech32Alphabet.getD x 'q')⟩ ++
    ⟨(List.range 6).map (fun i =>
      bech32Alphabet.getD ((chk >>> ((5 - i) * 5)) &&& 31) 'q')⟩

/-! ## JSON values and `JSON.stringify` -/

/-- The JSON values the scripts serialize: strings, non-negative integers
(only used for the request `id`), arrays and ordered-key objects. -/
inductive Json where
  | str : String → Json
  | num : Nat → Json
  | arr : List Json → Json
  | obj : List (String × Json) → Json
deriving Repr

/-- String escaping of `JSON.stringify` (`QuoteJSONString`): quote, backslash
and control characters are escaped, everything else is copied. -/
def jsonQuote (s : String) : String :=
  "\"" ++ ⟨(s.data.map (fun c =>
    if c = '"' then ['\\', '"']
    else if c = '\\' then ['\\', '\\']
    else if c = Char.ofNat 8 then ['\\', 'b']
    else if c = Char.ofNat 12 then ['\\', 'f']
    else if c = Char.ofNat 10 then ['\\', 'n']
    else if c = Char.ofNat 13 then ['\\', 'r']
    else if c = Char.ofNat 9 then ['\\', 't']
    else if c.toNat < 32 then
      '\\' :: 'u' :: '0' :: '0' :: [hexDigit (c.toNat / 16), hexDigit (c.toNat % 16)]
    else [c])).flatten⟩ ++ "\""

/-- Interleave a separator between rendered items. -/
def joinSep (sep : String) : List String → String
  | [] => ""
  | [x] => x
  | x :: y :: rest => x ++ sep ++ joinSep sep (y :: rest)

mutual

/-- Serialization algorithm of `JSON.stringify(v, null, gap)`:  with an empty
`gap` the compact form (no whitespace), with a non-empty `gap` the pretty form
(ECMA-262 `SerializeJSONObject`); `indent` is the accumulated indentation. -/
def stringifyAux (gap : String) : String → Json → String
  | _, .str s => jsonQuote s
  | _, .num n => natToString n
  | _, .arr [] => "[]"
  | indent, .arr (x :: xs) =>
    let indent' := indent ++ gap
    let items := stringifyItems gap indent' (x :: xs)
    if gap = "" then "[" ++ joinSep "," items ++ "]"
    else
      "[\n" ++ indent' ++ joinSep (",\n" ++ indent') items ++ "\n" ++ indent ++ "]"
  | _, .obj [] => "\x7b\x7d"
  | indent, .obj (kv :: kvs) =>
    let indent' := indent ++ gap
    let items := stringifyMembers gap indent' (kv :: kvs)
    if gap = "" then "\x7b" ++ joinSep "," items ++ "\x7d"
    else
      "\x7b\n" ++ indent' ++ joinSep (",\n" ++ indent') items ++ "\n" ++
        indent ++ "\x7d"

/-- Rendered elements of a JSON array. -/
def stringifyItems (gap indent : String) : List Json → List String
  | [] => []
  | v :: vs => stringifyAux gap indent v :: stringifyItems gap indent vs

/-- Rendered members of a JSON object (`"key": value`). -/
def stringifyMembers (gap indent : String) : List (String × Json) → List String
  | [] => []
  | p :: ps =>
    (jsonQuote p.1 ++ (if gap = "" then ":" else ": ") ++
      stringifyAux gap indent p.2) :: stringifyMembers gap indent ps

end

/-- Model of `JSON.stringify(v)`. -/
def stringify (v : Json) : String :=
  stringifyAux "" "" v

/-- Model of `JSON.stringify(v, null, 4)`. -/
def stringify4 (v : Json) : String :=
  stringifyAux "    " "" v

/-- Key list of a JSON object (for claims about key ordering). -/
def Json.objKeys : Json → List String
  | .obj kvs => kvs.map Prod.fst
  | _ => []

/-- Member lookup in a JSON object (first match, as in the scripts' literal
objects, which never repeat a key). -/
def Json.get : Json → String → Option Json
  | .obj kvs, k => (kvs.find? (fun p => p.1 = k)).map Prod.snd
  | _, _ => none

/-- Element lookup in a JSON array. -/
def Json.idx : Json → Nat → Option Json
  | .arr xs, i => xs.get? i
  | _, _ => none

/-! ## Execution model

Each script is a straight line of external calls.  The environment records
what the outside world (wallet extension, RPC node, clock) would answer;
running a script function is then pure, and alongside its result we collect
the trace of external calls it performed. -/

/-- Account metadata fetched from the chain (`client.getAccount`). -/
structure AccountData where
  accountNumber : Nat
  sequence : Nat
deriving Repr, DecidableEq

/-- The `result` object of a `broadcast_tx_sync` RPC response. -/
structure BroadcastResult where
  code : Nat
  log : Option String
  info : Option String
  txhash : Option String
  hash : Option String
deriving Repr, DecidableEq

/-- A parsed JSON-RPC response: either its `error` member is set (with the
given message) or its `result` member is. -/
inductive RpcResponse where
  | err : String → RpcResponse
  | ok : BroadcastResult → RpcResponse
deriving Repr, DecidableEq

/-- External calls a script run can make, in order. -/
inductive Event where
  | connect : Event
  | getAccount : String → Event
  | signMsg : List Nat → Event
  | personalSign : String → String → Event
  | post : String → Event
deriving Repr, DecidableEq

/-- The object `sendTransaction` resolves with:
`{ success, hash?, error?, code? }` (unused members absent). -/
structure TxResult where
  success : Bool
  hash : Option String
  error : Option String
  code : Option Nat
deriving Repr, DecidableEq

/-- Outcome of an async JavaScript call: resolved value or thrown error. -/
inductive JsOutcome (α : Type) where
  | thrown : String → JsOutcome α
  | value : α → JsOutcome α
deriving Repr, DecidableEq

/-- Broadcast bodies appearing in a trace. -/
def postsOf (tr : List Event) : List String :=
  tr.filterMap (fun e => match e with | .post b => some b | _ => none)

/-- Wallet `signMessage` payloads appearing in a trace. -/
def signedOf (tr : List Event) : List (List Nat) :=
  tr.filterMap (fun e => match e with | .signMsg m => some m | _ => none)

/-- MetaMask `personal_sign` payloads appearing in a trace. -/
def personalSignedOf (tr : List Event) : List String :=
  tr.filterMap (fun e => match e with | .personalSign m _ => some m | _ => none)

/-- True when no transaction is signed or broadcast before the first account
fetch: scans the trace, succeeding at the first `getAccount` and failing at a
`signMsg` or `post` seen earlier. -/
def noTxBeforeFetch : List Event → Bool
  | [] => true
  | .getAccount _ :: _ => true
  | .signMsg _ :: _ => false
  | .post _ :: _ => false
  | _ :: rest => noTxBeforeFetch rest

/-! ## Shared Nolus transaction building

`solfare.ts` and the two scripts inside `phantom_not_working.ts` duplicate
their `CONFIG` and their transaction-building steps verbatim (only the
default memo and the wallet API differ); the common pieces live here. -/

namespace NolusTx

/-- The `CONFIG` literal of the three Nolus scripts. -/
def rpcUrl : String := "https://rpc.nolus.network"

/-- Chain id from `CONFIG`. -/
def chainId : String := "pirin-1"

/-- Address human-readable part from `CONFIG` (`addressPrefix`). -/
def addressHrp : String := "nolus"

/-- Denomination from `CONFIG`. -/
def denom : String := "unls"

/-- Fixed fee amount (`const feeAmount = "500"`). -/
def feeAmount : String := "500"

/-- Fixed gas limit (`const gasLimit = 200000n`). -/
def gasLimit : Nat := 200000

/-- The `MsgSend.fromPartial` literal of `sendTransaction`. -/
def msgSend (bech32Addr toAddr amount : String) : MsgSend :=
  { fromAddress := bech32Addr
    toAddress := toAddr
    amount := [{ denom := denom, amount := amount }] }

/-- The `TxBody.fromPartial` literal of `sendTransaction`; `memoText` is the
already-defaulted memo. -/
def txBody (bech32Addr toAddr amount memoText : String) : TxBody :=
  { messages := [{ typeUrl := "/cosmos.bank.v1beta1.MsgSend"
                   value := (msgSend bech32Addr toAddr amount).encode }]
    memo := memoText }

/-- The `AuthInfo.fromPartial` literal of `sendTransaction`: one signer with
the wallet key (decoded from the base64 `pubkeyAny.value`), mode
`SIGN_MODE_DIRECT`, the fetched sequence, and the constant fee. -/
def authInfo (pubkeyAnyTypeUrl pubkeyAnyValue : String) (sequence : Nat) :
    AuthInfo :=
  { signerInfos := [{ publicKey := some { typeUrl := pubkeyAnyTypeUrl
                                          value := fromBase64 pubkeyAnyValue }
                      modeInfo := some { single := some { mode := SIGN_MODE_DIRECT } }
                      sequence := sequence }]
    fee := some { amount := [{ denom := denom, amount := feeAmount }]
                  gasLimit := gasLimit
                  payer := ""
                  granter := "" } }

/-- The `SignDoc.fromPartial` literal of `sendTransaction`. -/
def signDoc (txBodyBytes authInfoBytes : List Nat) (accountNumber : Nat) :
    SignDoc :=
  { bodyBytes := txBodyBytes
    authInfoBytes := authInfoBytes
    chainId := chainId
    accountNumber := accountNumber }

/-- Body of the `broadcastTransaction` POST:
`JSON.stringify({ jsonrpc, id: Date.now(), method, params: { tx } })`. -/
def broadcastBody (id : Nat) (txBytes : List Nat) : String :=
  stringify (.obj [("jsonrpc", .str "2.0"), ("id", .num id),
    ("method", .str "broadcast_tx_sync"),
    ("params", .obj [("tx", .str (toBase64 txBytes))])])

end NolusTx

/-- What the scripts' `getAddress` returns for the Nolus wallets (the
`solanaAddress` member is only logged and never read; it is omitted). -/
structure NolusAddressResult where
  pubkeyAnyTypeUrl : String
  pubkeyAnyValue : String
  bech32Addr : String
  ed25519PublicKey : List Nat
deriving Repr, DecidableEq

/-! ## `src/solfare.ts` -/

namespace Solfare

/-- External world of the Solflare script: wallet presence and connection
outcome, chain account state, wallet signing and RPC oracles, clock. -/
structure Env where
  isSolflare : Bool
  connectOk : Bool
  publicKey : Option (List Nat)
  account : Option AccountData
  accountErr : Option String
  sign : List Nat → Option (List Nat)
  rpc : String → RpcResponse
  now : Nat

/-- Lines 39–77: check the provider, connect, and derive the Nolus address
`bech32(SHA256(pubkey)[:20])`; connection failures are rethrown wrapped. -/
def getAddress (env : Env) : Except String NolusAddressResult × List Event :=
  if ¬ env.isSolflare then
    (.error "Solflare wallet not found! Install from https://solflare.com/", [])
  else
    match env.connectOk, env.publicKey with
    | true, some pk =>
      let ed25519PubkeyProtoBytes := PubKeyProto.encode pk
      let hashBytes := sha256 pk
      let addressBytes := hashBytes.take 20
      let bech32Addr := bech32Encode NolusTx.addressHrp (bech32ToWords addressBytes)
      (.ok { pubkeyAnyTypeUrl := "/cosmos.crypto.ed25519.PubKey"
             pubkeyAnyValue := toBase64 ed25519PubkeyProtoBytes
             bech32Addr := bech32Addr
             ed25519PublicKey := pk }, [.connect])
    | _, _ =>
      (.error "Failed to connect to Solflare: Error: Connection failed", [.connect])

/-- Lines 79–93: fetch the account; a missing account yields
`{ accountNumber: 0n, sequence: 0n }`; client errors propagate. -/
def fetchAccountInfo (env : Env) (address : String) :
    Except String AccountData × List Event :=
  match env.accountErr with
  | some e => (.error e, [.getAccount address])
  | none =>
    match env.account with
    | none => (.ok { accountNumber := 0, sequence := 0 }, [.getAccount address])
    | some a => (.ok a, [.getAccount address])

/-- Lines 95–115: POST the broadcast body; an `error` member in the response
becomes a thrown `Broadcast failed:` error, otherwise `result` is returned. -/
def broadcastTransaction (env : Env) (txBytes : List Nat) :
    Except String BroadcastResult × List Event :=
  let body := NolusTx.broadcastBody env.now txBytes
  match env.rpc body with
  | .err m => (.error ("Broadcast failed: " ++ m), [.post body])
  | .ok r => (.ok r, [.post body])

/-- Lines 118–215: the full send pipeline; every failure is caught by the
outer `try`/`catch` and surfaced as `{ success: false, error }`. -/
def sendTransaction (env : Env) (toAddress amountStr memo : Option String) :
    TxResult × List Event :=
  match getAddress env with
  | (.error e, tr) =>
    ({ success := false, hash := none, error := some e, code := none }, tr)
  | (.ok ga, tr) =>
    match fetchAccountInfo env ga.bech32Addr with
    | (.error e, tr2) =>
      ({ success := false, hash := none, error := some e, code := none }, tr ++ tr2)
    | (.ok acct, tr2) =>
      let amount := jsOr amountStr "1000000"
      let toAddr := jsOr toAddress ga.bech32Addr
      let txBodyBytes :=
        (NolusTx.txBody ga.bech32Addr toAddr amount
          (jsOr memo "solflare-ed25519-test")).encode
      let authInfoBytes :=
        (NolusTx.authInfo ga.pubkeyAnyTypeUrl ga.pubkeyAnyValue
          acct.sequence).encode
      let signBytes :=
        (NolusTx.signDoc txBodyBytes authInfoBytes acct.accountNumber).encode
      let tr3 := tr ++ tr2 ++ [Event.signMsg signBytes]
      match env.sign signBytes with
      | none =>
        ({ success := false, hash := none,
           error := some "Error: signMessage rejected", code := none }, tr3)
      | some signature =>
        let txBytes := TxRaw.encode
          { bodyBytes := txBodyBytes, authInfoBytes := authInfoBytes
            signatures := [signature] }
        match broadcastTransaction env txBytes with
        | (.error e, tr4) =>
          ({ success := false, hash := none, error := some e, code := none },
            tr3 ++ tr4)
        | (.ok r, tr4) =>
          if r.code = 0 then
            ({ success := true, hash := jsOrOpt r.txhash r.hash
               error := none, code := none }, tr3 ++ tr4)
          else
            ({ success := false, hash := none
               error := some (jsOr r.log "Unknown error")
               code := some r.code }, tr3 ++ tr4)

end Solfare

/-! ## `src/phantom_not_working.ts`, first script (lines 1–268) -/

namespace Phantom

/-- External world of the Phantom scripts.  `hasProvider` models
`window.phantom?.solana` (resp. `getPhantom()`) being defined, `isPhantom`
the provider flag the second script checks, `connectPk` the public key
`connect()` resolves with (`none` models rejection). -/
structure Env where
  hasProvider : Bool
  isPhantom : Bool
  connectPk : Option (List Nat)
  account : Option AccountData
  accountErr : Option String
  sign : List Nat → Option (List Nat)
  rpc : String → RpcResponse
  now : Nat

/-- Lines 41–75: connect (`window.phantom?.solana!.connect()`, a missing
provider throws inside the `try`) and derive the Nolus address
`bech32(SHA256(pubkey)[:20])`. -/
def getAddress (env : Env) : Except String NolusAddressResult × List Event :=
  if ¬ env.hasProvider then
    (.error "Failed to connect to Phantom: TypeError", [])
  else
    match env.connectPk with
    | none =>
      (.error "Failed to connect to Phantom: Error: Connection failed", [.connect])
    | some pk =>
      let ed25519PubkeyProtoBytes := PubKeyProto.encode pk
      let hashBytes := sha256 pk
      let addressBytes := hashBytes.take 20
      let bech32Addr := bech32Encode NolusTx.addressHrp (bech32ToWords addressBytes)
      (.ok { pubkeyAnyTypeUrl := "/cosmos.crypto.ed25519.PubKey"
             pubkeyAnyValue := toBase64 ed25519PubkeyProtoBytes
             bech32Addr := bech32Addr
             ed25519PublicKey := pk }, [.connect])

/-- Lines 77–91: identical to the Solflare `fetchAccountInfo`. -/
def fetchAccountInfo (env : Env) (address : String) :
    Except String AccountData × List Event :=
  match env.accountErr with
  | some e => (.error e, [.getAccount address])
  | none =>
    match env.account with
    | none => (.ok { accountNumber := 0, sequence := 0 }, [.getAccount address])
    | some a => (.ok a, [.getAccount address])

/-- Lines 93–113: identical to the Solflare `broadcastTransaction`. -/
def broadcastTransaction (env : Env) (txBytes : List Nat) :
    Except String BroadcastResult × List Event :=
  let body := NolusTx.broadcastBody env.now txBytes
  match env.rpc body with
  | .err m => (.error ("Broadcast failed: " ++ m), [.post body])
  | .ok r => (.ok r, [.post body])

/-- Lines 116–217: the send pipeline of the first Phantom script; it passes
the SignDoc bytes to `signMessage(signBytes, "utf8")` unchanged (the second
argument is only a display hint). -/
def sendTransaction (env : Env) (toAddress amountStr memo : Option String) :
    TxResult × List Event :=
  match getAddress env with
  | (.error e, tr) =>
    ({ success := false, hash := none, error := some e, code := none }, tr)
  | (.ok ga, tr) =>
    match fetchAccountInfo env ga.bech32Addr with
    | (.error e, tr2) =>
      ({ success := false, hash := none, error := some e, code := none }, tr ++ tr2)
    | (.ok acct, tr2) =>
      let amount := jsOr amountStr "1000000"
      let toAddr := jsOr toAddress ga.bech32Addr
      let txBodyBytes :=
        (NolusTx.txBody ga.bech32Addr toAddr amount
          (jsOr memo "phantom-ed25519-test")).encode
      let authInfoBytes :=
        (NolusTx.authInfo ga.pubkeyAnyTypeUrl ga.pubkeyAnyValue
          acct.sequence).encode
      let signBytes :=
        (NolusTx.signDoc txBodyBytes authInfoBytes acct.accountNumber).encode
      let tr3 := tr ++ tr2 ++ [Event.signMsg signBytes]
      match env.sign signBytes with
      | none =>
        ({ success := false, hash := none,
           error := some "Error: signMessage rejected", code := none }, tr3)
      | some signature =>
        let txBytes := TxRaw.encode
          { bodyBytes := txBodyBytes, authInfoBytes := authInfoBytes
            signatures := [signature] }
        match broadcastTransaction env txBytes with
        | (.error e, tr4) =>
          ({ success := false, hash := none, error := some e, code := none },
            tr3 ++ tr4)
        | (.ok r, tr4) =>
          if r.code = 0 then
            ({ success := true, hash := jsOrOpt r.txhash r.hash
               error := none, code := none }, tr3 ++ tr4)
          else
            ({ success := false, hash := none
               error := some (jsOr r.log "Unknown error")
               code := some r.code }, tr3 ++ tr4)

end Phantom

/-! ## `src/phantom_not_working.ts`, second script (lines 269–550) -/

namespace Phantom2

/-- Line 471: the message actually handed to `phantom.signMessage` —
`new TextEncoder().encode(Buffer.from(signBytes).toString())`, a lossy
UTF-8 decode of the SignDoc bytes re-encoded to UTF-8. -/
def encodedMessage (signBytes : List Nat) : List Nat :=
  utf8 (bufferToString signBytes)

/-- Lines 323–360: like the first script's `getAddress`, but the provider and
its `isPhantom` flag are checked up front (throwing outside the `try`). -/
def getAddress (env : Phantom.Env) :
    Except String NolusAddressResult × List Event :=
  if ¬ (env.hasProvider ∧ env.isPhantom) then
    (.error "Phantom wallet not found! Install from https://phantom.app/", [])
  else
    match env.connectPk with
    | none =>
      (.error "Failed to connect to Phantom: Error: Connection failed", [.connect])
    | some pk =>
      let ed25519PubkeyProtoBytes := PubKeyProto.encode pk
      let hashBytes := sha256 pk
      let addressBytes := hashBytes.take 20
      let bech32Addr := bech32Encode NolusTx.addressHrp (bech32ToWords addressBytes)
      (.ok { pubkeyAnyTypeUrl := "/cosmos.crypto.ed25519.PubKey"
             pubkeyAnyValue := toBase64 ed25519PubkeyProtoBytes
             bech32Addr := bech32Addr
             ed25519PublicKey := pk }, [.connect])

/-- Lines 402–505: the send pipeline of the second Phantom script.  The only
difference from the first script is the signing step: the wallet receives
`encodedMessage signBytes` instead of `signBytes`. -/
def sendTransaction (env : Phantom.Env) (toAddress amountStr memo : Option String) :
    TxResult × List Event :=
  match getAddress env with
  | (.error e, tr) =>
    ({ success := false, hash := none, error := some e, code := none }, tr)
  | (.ok ga, tr) =>
    match Phantom.fetchAccountInfo env ga.bech32Addr with
    | (.error e, tr2) =>
      ({ success := false, hash := none, error := some e, code := none }, tr ++ tr2)
    | (.ok acct, tr2) =>
      let amount := jsOr amountStr "1000000"
      let toAddr := jsOr toAddress ga.bech32Addr
      let txBodyBytes :=
        (NolusTx.txBody ga.bech32Addr toAddr amount
          (jsOr memo "phantom-ed25519-test")).encode
      let authInfoBytes :=
        (NolusTx.authInfo ga.pubkeyAnyTypeUrl ga.pubkeyAnyValue
          acct.sequence).encode
      let signBytes :=
        (NolusTx.signDoc txBodyBytes authInfoBytes acct.accountNumber).encode
      let tr3 := tr ++ tr2 ++ [Event.signMsg (encodedMessage signBytes)]
      match env.sign (encodedMessage signBytes) with
      | none =>
        ({ success := false, hash := none,
           error := some "Error: signMessage rejected", code := none }, tr3)
      | some signature =>
        let txBytes := TxRaw.encode
          { bodyBytes := txBodyBytes, authInfoBytes := authInfoBytes
            signatures := [signature] }
        match Phantom.broadcastTransaction env txBytes with
        | (.error e, tr4) =>
          ({ success := false, hash := none, error := some e, code := none },
            tr3 ++ tr4)
        | (.ok r, tr4) =>
          if r.code = 0 then
            ({ success := true, hash := jsOrOpt r.txhash r.hash
               error := none, code := none }, tr3 ++ tr4)
          else
            ({ success := false, hash := none
               error := some (jsOr r.log "Unknown error")
               code := some r.code }, tr3 ++ tr4)

end Phantom2

/-! ## The MetaMask/Neutron script (`src/unnamed/part_001`, lines 1–290) -/

namespace Metamask

/-- The `CONFIG` literal of the MetaMask script. -/
def rpcUrl : String := "https://pion-rpc.nolus.network"

/-- Chain id from `CONFIG`. -/
def chainId : String := "pion-1"

/-- Address human-readable part from `CONFIG` (`addressPrefix`). -/
def addressHrp : String := "neutron"

/-- Denomination from `CONFIG`. -/
def denom : String := "untrn"

/-- External world of the MetaMask script.  `recoveredPubkey` is the
uncompressed key `SigningKey.recoverPublicKey(digest, sig)` returns (the
recovery itself is `ethers` cryptography, outside this code);
`personalSign` is the wallet's `personal_sign` oracle keyed by the hex
message (`none` models rejection). -/
structure Env where
  requestAccountsErr : Option String
  ethAddress : String
  personalSign : String → Option String
  recoveredPubkey : List Nat
  account : Option AccountData
  accountErr : Option String
  rpc : String → RpcResponse
  now : Nat

/-- Lines 39–44: compress the 65-byte uncompressed secp256k1 key: parity
byte of `y`'s last byte, then the 32 `x` bytes (a zero-initialised
`Uint8Array(33)` pads any missing bytes). -/
def compressPubkey (uncompressed : List Nat) : List Nat :=
  let x := (uncompressed.drop 1).take 32
  let y := uncompressed.drop 33
  (if (y.getLast?.getD 0) % 2 = 1 then 3 else 2) ::
    (x ++ List.replicate (32 - x.length) 0)

/-- What `getAddress` resolves with. -/
structure AddressResult where
  ethAddress : String
  pubkeyAny : AnyProto
  bech32Addr : String
deriving Repr, DecidableEq

/-- The fixed message whose `personal_sign` signature seeds the pubkey
recovery, as sent: `hexlify(toUtf8Bytes("Generate Cosmos pubkey"))`. -/
def pubkeyGenMessage : String :=
  "0x" ++ toHex (utf8 "Generate Cosmos pubkey")

/-- Lines 22–67: request accounts, recover the secp256k1 key from a
`personal_sign` signature, compress it, and derive the Neutron address
`bech32(RIPEMD160(SHA256(compressed)))`. -/
def getAddress (env : Env) : Except String AddressResult × List Event :=
  match env.requestAccountsErr with
  | some e => (.error e, [])
  | none =>
    match env.personalSign pubkeyGenMessage with
    | none =>
      (.error "personal_sign rejected",
        [.connect, .personalSign pubkeyGenMessage env.ethAddress])
    | some _sig =>
      let compressed := compressPubkey env.recoveredPubkey
      let pubkeyProtoBytes := PubKeyProto.encode compressed
      let sha := sha256 compressed
      let rip := ripemd160 sha
      let bech32Addr := bech32Encode addressHrp (bech32ToWords rip)
      (.ok { ethAddress := env.ethAddress
             pubkeyAny := { typeUrl := "/cosmos.crypto.secp256k1.PubKey"
                            value := pubkeyProtoBytes }
             bech32Addr := bech32Addr },
        [.connect, .personalSign pubkeyGenMessage env.ethAddress])

/-- Lines 69–87: fetch the account; a missing account yields
`{ accountNumber: 0, sequence: 0 }`; errors are logged and rethrown. -/
def fetchAccountInfo (env : Env) (address : String) :
    Except String AccountData × List Event :=
  match env.accountErr with
  | some e => (.error e, [.getAccount address])
  | none =>
    match env.account with
    | none => (.ok { accountNumber := 0, sequence := 0 }, [.getAccount address])
    | some a => (.ok a, [.getAccount address])

/-- Body of the `broadcastTransaction` POST (lines 97–104), identical in
shape to the Nolus one. -/
def broadcastBody (id : Nat) (txBytes : List Nat) : String :=
  stringify (.obj [("jsonrpc", .str "2.0"), ("id", .num id),
    ("method", .str "broadcast_tx_sync"),
    ("params", .obj [("tx", .str (toBase64 txBytes))])])

/-- Lines 133–162: the hand-written Amino-style JSON sign document, with its
source-order keys; inside each coin object `amount` precedes `denom`. -/
def exactSignDoc (accountNumber sequence : Nat) (bech32Addr : String)
    (toAddress amount memo : Option String) : Json :=
  .obj [
    ("account_number", .str (natToString accountNumber)),
    ("chain_id", .str chainId),
    ("fee", .obj [
      ("amount", .arr [.obj [("amount", .str "5000"), ("denom", .str denom)]]),
      ("gas", .str "200000")]),
    ("memo", .str (jsOr memo "Neutron Network transaction")),
    ("msgs", .arr [.obj [
      ("type", .str "cosmos-sdk/MsgSend"),
      ("value", .obj [
        ("amount", .arr [.obj [("amount", .str (jsOr amount "1000000")),
                               ("denom", .str denom)]]),
        ("from_address", .str bech32Addr),
        ("to_address", .str (jsOr toAddress bech32Addr))])]]),
    ("sequence", .str (natToString sequence))]

/-- Lines 181–197: the protobuf `TxBody`. -/
def txBody (bech32Addr toAddr amount memoText : String) : TxBody :=
  { messages := [{ typeUrl := "/cosmos.bank.v1beta1.MsgSend"
                   value := (MsgSend.encode
                     { fromAddress := bech32Addr
                       toAddress := toAddr
                       amount := [{ denom := denom, amount := amount }] }) }]
    memo := memoText }

/-- Lines 199–215: the protobuf `AuthInfo`: wallet key, mode
`SIGN_MODE_EIP_191`, the fetched sequence, fee `5000untrn` / gas 200000. -/
def authInfo (pubkeyAny : AnyProto) (sequence : Nat) : AuthInfo :=
  { signerInfos := [{ publicKey := some pubkeyAny
                      modeInfo := some { single := some { mode := SIGN_MODE_EIP_191 } }
                      sequence := sequence }]
    fee := some { amount := [{ denom := denom, amount := "5000" }]
                  gasLimit := 200000
                  payer := ""
                  granter := "" } }

/-- Lines 122–248: the MetaMask send pipeline.  The signed payload is the
4-space-indented JSON document, sent to `personal_sign` as `0x` plus its hex;
the returned signature loses its `0x` prefix and trailing recovery byte
(`sigResult.slice(2, -2)`) before entering `TxRaw`.  The `catch` rethrows,
so failures surface as thrown errors. -/
def sendTransaction (env : Env) (toAddress amount memo : Option String) :
    JsOutcome TxResult × List Event :=
  match getAddress env with
  | (.error e, tr) => (.thrown e, tr)
  | (.ok ga, tr) =>
    match fetchAccountInfo env ga.bech32Addr with
    | (.error e, tr2) => (.thrown e, tr ++ tr2)
    | (.ok acct, tr2) =>
      let doc := exactSignDoc acct.accountNumber acct.sequence ga.bech32Addr
        toAddress amount memo
      let messageBytes := utf8 (stringify4 doc)
      let msgToSign := "0x" ++ toHex messageBytes
      let tr3 := tr ++ tr2 ++ [Event.personalSign msgToSign ga.ethAddress]
      match env.personalSign msgToSign with
      | none => (.thrown "personal_sign rejected", tr3)
      | some sigResult =>
        match fromHex (jsStrSlice sigResult 2 (-2)) with
        | none => (.thrown "Invalid hex string", tr3)
        | some sig =>
          let txBodyBytes :=
            (txBody ga.bech32Addr (jsOr toAddress ga.bech32Addr)
              (jsOr amount "1000000")
              (jsOr memo "Neutron Network transaction")).encode
          let authInfoBytes := (authInfo ga.pubkeyAny acct.sequence).encode
          let txBytes := TxRaw.encode
            { bodyBytes := txBodyBytes, authInfoBytes := authInfoBytes
              signatures := [sig] }
          let body := broadcastBody env.now txBytes
          let tr4 := tr3 ++ [Event.post body]
          match env.rpc body with
          | .err m => (.thrown ("Neutron RPC Error: " ++ m), tr4)
          | .ok r =>
            if r.code = 0 then
              (.value { success := true, hash := r.hash
                        error := none, code := none }, tr4)
            else
              (.value { success := false, hash := none
                        error := r.log, code := none }, tr4)

/-- Lines 255–264: the network-status POST body —
`{ jsonrpc: "2.0", id: 1, method: "abci_info", params: {} }`. -/
def checkTestnetBody : String :=
  stringify (.obj [("jsonrpc", .str "2.0"), ("id", .num 1),
    ("method", .str "abci_info"), ("params", .obj [])])

/-- Lines 251–273: `checkTestnet` POSTs the fixed `abci_info` envelope and
resolves with the parsed response. -/
def checkTestnet (env : Env) : JsOutcome RpcResponse × List Event :=
  (.value (env.rpc checkTestnetBody), [.post checkTestnetBody])

/-- Lines 420–422: `scrtToUscrt` — multiply by 1e6 and render in decimal
(exact for every amount whose product is exactly representable). -/
def scrtToUscrt (scrtAmount : Nat) : String :=
  natToString (scrtAmount * 1000000)

/-- Lines 424–426: `uscrtToScrt` — `parseInt` then divide by 1e6; the
division is exact rational arithmetic here, faithful to the float division
wherever the operands are exactly representable; `none` models `NaN`. -/
def uscrtToScrt (uscrtAmount : String) : Option ℚ :=
  (parseIntJs uscrtAmount).map (fun k => (k : ℚ) / 1000000)

end Metamask

/-! ## Spec-side definitions

Second definitions written from the specification's words, to be compared
against the source-derived ones. -/

/-- Spec wording for the Nolus scripts: "the bech32 encoding, with prefix
`nolus`, of the first 20 bytes of SHA-256 of the 32-byte ed25519 public
key". -/
def specNolusAddress (pk : List Nat) : String :=
  bech32Encode "nolus" (bech32ToWords ((sha256 pk).take 20))

/-- Spec wording for the MetaMask script: "the bech32 encoding, with prefix
`neutron`, of RIPEMD-160 of SHA-256 of the 33-byte compressed secp256k1
public key". -/
def specNeutronAddress (compressed : List Nat) : String :=
  bech32Encode "neutron" (bech32ToWords (ripemd160 (sha256 compressed)))

/-- Spec wording for the RPC requests: "the fixed envelope with exactly the
fields `jsonrpc` (\"2.0\"), `id`, `method`, and `params`". -/
def specRpcEnvelope (id : Nat) (method : String) (params : Json) : String :=
  stringify (.obj [("jsonrpc", .str "2.0"), ("id", .num id),
    ("method", .str method), ("params", params)])

/-- Spec wording for the MetaMask signature processing: the signature "with
its 0x prefix and final recovery byte stripped" — drop the first two
characters and the last two hex characters. -/
def specStripSignature (sigResult : String) : String :=
  ⟨((sigResult.data.drop 2).reverse.drop 2).reverse⟩

/-! ## Concrete environments for witnesses and counterexamples -/

/-- A 32-byte ed25519 public key of ones. -/
def pk0 : List Nat := List.replicate 32 1

/-- A 32-byte public key of `0x80` bytes: its raw embedding inside the
AuthInfo bytes makes the SignDoc bytes invalid UTF-8. -/
def pk80 : List Nat := List.replicate 32 128

/-- A found account: number 5, sequence 7. -/
def acct0 : AccountData := { accountNumber := 5, sequence := 7 }

/-- A code-0 broadcast result carrying a `txhash`. -/
def resOk : BroadcastResult :=
  { code := 0, log := none, info := none, txhash := some "AB12", hash := none }

/-- A failed broadcast result (code 5). -/
def resFail : BroadcastResult :=
  { code := 5, log := some "out of gas", info := none, txhash := none, hash := none }

/-- Happy-path Solflare environment. -/
def envS0 : Solfare.Env :=
  { isSolflare := true, connectOk := true, publicKey := some pk0
    account := some acct0, accountErr := none
    sign := fun _ => some [9, 9], rpc := fun _ => .ok resOk
    now := 1700000000000 }

/-- Same wallet key as `envS0` but different account state, clock, signer
and RPC answers — everything except the public key differs. -/
def envS1 : Solfare.Env :=
  { isSolflare := true, connectOk := true, publicKey := some pk0
    account := none, accountErr := none
    sign := fun _ => none, rpc := fun _ => .ok resFail
    now := 42 }

/-- Solflare environment whose account lookup finds nothing. -/
def envS8 : Solfare.Env :=
  { isSolflare := true, connectOk := true, publicKey := some pk0
    account := none, accountErr := none
    sign := fun _ => some [7], rpc := fun _ => .ok resOk
    now := 99 }

/-- Happy-path Phantom environment. -/
def envP0 : Phantom.Env :=
  { hasProvider := true, isPhantom := true, connectPk := some pk0
    account := some acct0, accountErr := none
    sign := fun _ => some [9], rpc := fun _ => .ok resOk
    now := 123 }

/-- Phantom environment whose wallet key is `pk80`. -/
def envP80 : Phantom.Env :=
  { hasProvider := true, isPhantom := true, connectPk := some pk80
    account := some acct0, accountErr := none
    sign := fun _ => some [9], rpc := fun _ => .ok resOk
    now := 123 }

/-- Phantom environment whose account lookup finds nothing. -/
def envP8 : Phantom.Env :=
  { hasProvider := true, isPhantom := true, connectPk := some pk0
    account := none, accountErr := none
    sign := fun _ => some [7], rpc := fun _ => .ok resOk
    now := 99 }

/-- A 65-byte uncompressed secp256k1 point as `ethers` returns it
(`0x04` tag, then x, then y; the last y byte 9 is odd). -/
def uncompressed0 : List Nat :=
  4 :: List.replicate 32 17 ++ List.replicate 31 3 ++ [9]

/-- Happy-path MetaMask environment; `personal_sign` answers a 4-byte hex
signature so that `slice(2, -2)` leaves valid hex. -/
def envM0 : Metamask.Env :=
  { requestAccountsErr := none, ethAddress := "0xeeff"
    personalSign := fun _ => some "0xaabbcc"
    recoveredPubkey := uncompressed0
    account := some acct0, accountErr := none
    rpc := fun _ => .ok resOk, now := 555 }

/-- Same recovered key as `envM0`, every other field different. -/
def envM1 : Metamask.Env :=
  { requestAccountsErr := none, ethAddress := "0x1234"
    personalSign := fun _ => some "0x99"
    recoveredPubkey := uncompressed0
    account := none, accountErr := none
    rpc := fun _ => .err "down", now := 1 }

/-- MetaMask environment whose account lookup finds nothing. -/
def envM8 : Metamask.Env :=
  { requestAccountsErr := none, ethAddress := "0xeeff"
    personalSign := fun _ => some "0xaabbcc"
    recoveredPubkey := uncompressed0
    account := none, accountErr := none
    rpc := fun _ => .ok resOk, now := 555 }

/-- The Nolus bech32 address derived from `pk80`. -/
def addr80 : String :=
  bech32Encode "nolus" (bech32ToWords ((sha256 pk80).take 20))

/-- The SignDoc bytes the second Phantom script builds in the `envP80` run
with all arguments omitted (self-send of the default amount). -/
def signBytes80 : List Nat :=
  (NolusTx.signDoc
    ((NolusTx.txBody addr80 addr80 "1000000" "phantom-ed25519-test").encode)
    ((NolusTx.authInfo "/cosmos.crypto.ed25519.PubKey"
      (toBase64 (PubKeyProto.encode pk80)) acct0.sequence).encode)
    acct0.accountNumber).encode

/-- The address result the Solflare and Phantom `getAddress` compute for
`pk0` (spelled with the spec-side derivation, to which the source's is
definitionally equal). -/
def ga0 : NolusAddressResult :=
  { pubkeyAnyTypeUrl := "/cosmos.crypto.ed25519.PubKey"
    pubkeyAnyValue := toBase64 (PubKeyProto.encode pk0)
    bech32Addr := specNolusAddress pk0
    ed25519PublicKey := pk0 }

/-- The address result the MetaMask `getAddress` computes in `envM0`. -/
def gaM0 : Metamask.AddressResult :=
  { ethAddress := "0xeeff"
    pubkeyAny := { typeUrl := "/cosmos.crypto.secp256k1.PubKey"
                   value := PubKeyProto.encode (Metamask.compressPubkey uncompressed0) }
    bech32Addr := specNeutronAddress (Metamask.compressPubkey uncompressed0) }

/-! ## Theorems -/

/-- A `takeWhile` over a list all of whose members satisfy the predicate is
the whole list. -/
lemma takeWhile_of_all {p : Char → Bool} :
    ∀ l : List Char, (∀ c ∈ l, p c = true) → l.takeWhile p = l := by
  intro l h
  induction l with
  | nil => rfl
  | cons c cs ih =>
    simp only [List.takeWhile_cons]
    rw [h c (by simp)]
    simp [ih (fun x hx => h x (by simp [hx]))]

/-- The fuel argument of `natDigitsAux` is irrelevant once it dominates the
number. -/
lemma natDigitsAux_congr : ∀ fuel fuel' n : Nat, n ≤ fuel → n ≤ fuel' →
    natDigitsAux fuel n = natDigitsAux fuel' n := by
  intro fuel
  induction fuel with
  | zero =>
    intro fuel' n h1 h2
    have hn : n = 0 := by omega
    subst hn
    cases fuel' <;> simp [natDigitsAux]
  | succ f ihf =>
    intro fuel' n h1 h2
    cases fuel' with
    | zero =>
      have hn : n = 0 := by omega
      subst hn
      simp [natDigitsAux]
    | succ f' =>
      simp only [natDigitsAux]
      by_cases h : n < 10
      · rw [if_pos h, if_pos h]
      · rw [if_neg h, if_neg h]
        congr 1
        exact ihf f' (n / 10) (by omega) (by omega)

/-- Defining recurrence of `natDigits`. -/
lemma natDigits_eq (n : Nat) :
    natDigits n = if n < 10 then [n] else natDigits (n / 10) ++ [n % 10] := by
  by_cases h : n < 10
  · rw [if_pos h]
    cases n with
    | zero => simp [natDigits, natDigitsAux]
    | succ m => simp [natDigits, natDigitsAux, h]
  · rw [if_neg h]
    cases n with
    | zero => simp at h
    | succ m =>
      have hbody : natDigits (m + 1) = natDigitsAux m ((m + 1) / 10) ++ [(m + 1) % 10] := by
        simp [natDigits, natDigitsAux, h]
      rw [hbody]
      congr 1
      exact natDigitsAux_congr m ((m + 1) / 10) ((m + 1) / 10) (by omega) (by omega)

/-- Every decimal digit produced by `natDigits` is below 10. -/
lemma natDigits_lt_ten : ∀ n : Nat, ∀ d ∈ natDigits n, d < 10 := by
  intro n
  induction n using Nat.strong_induction_on with
  | _ n ih =>
    intro d hd
    by_cases h : n < 10
    · rw [natDigits_eq, if_pos h] at hd
      simp at hd
      omega
    · rw [natDigits_eq, if_neg h] at hd
      rcases List.mem_append.mp hd with h1 | h2
      · exact ih (n / 10) (Nat.div_lt_self (by omega) (by omega)) d h1
      · simp at h2
        omega

/-- `natDigits` never returns the empty list. -/
lemma natDigits_ne_nil (n : Nat) : natDigits n ≠ [] := by
  by_cases h : n < 10
  · rw [natDigits_eq, if_pos h]
    simp
  · rw [natDigits_eq, if_neg h]
    simp

/-- Folding the digits of `n` back with `a * 10 + d` recovers `n`. -/
lemma natDigits_foldl (n : Nat) :
    (natDigits n).foldl (fun a d => a * 10 + d) 0 = n := by
  suffices h : ∀ m : Nat, ∀ acc : Nat,
      (natDigits m).foldl (fun a d => a * 10 + d) acc = acc * 10 ^ (natDigits m).length + m by
    have := h n 0
    simpa using this
  intro m
  induction m using Nat.strong_induction_on with
  | _ m ih =>
    intro acc
    by_cases h : m < 10
    · rw [natDigits_eq, if_pos h]
      simp
    · rw [natDigits_eq, if_neg h]
      rw [List.foldl_append]
      rw [ih (m / 10) (Nat.div_lt_self (by omega) (by omega)) acc]
      simp [List.length_append, pow_succ]
      ring_nf
      omega

/-- The character of a digit reads back as that digit. -/
lemma digitChar_toNat (d : Nat) (h : d < 10) :
    (Char.ofNat (48 + d)).toNat = 48 + d := by
  interval_cases d <;> decide

/-- Digit characters satisfy `Char.isDigit`. -/
lemma digitChar_isDigit (d : Nat) (h : d < 10) :
    (Char.ofNat (48 + d)).isDigit = true := by
  interval_cases d <;> decide

/-- Digit characters are not the space, plus, or minus characters. -/
lemma digitChar_not_special (d : Nat) (h : d < 10) :
    Char.ofNat (48 + d) ≠ ' ' ∧ Char.ofNat (48 + d) ≠ '+' ∧
      Char.ofNat (48 + d) ≠ '-' := by
  interval_cases d <;> exact ⟨by decide, by decide, by decide⟩

/-- Folding digit characters with the parser's step function equals folding
the digits themselves. -/
lemma foldl_digitChars (ds : List Nat) (h : ∀ d ∈ ds, d < 10) (acc : Nat) :
    (ds.map (fun d => Char.ofNat (48 + d))).foldl (fun a c => a * 10 + (c.toNat - 48)) acc
      = ds.foldl (fun a d => a * 10 + d) acc := by
  rw [List.foldl_map]
  apply List.foldl_ext
  intro a d hd
  rw [digitChar_toNat d (h d hd)]
  omega

/-- JavaScript `parseInt` inverts `Number.prototype.toString` on naturals. -/
lemma parseIntJs_natToString (n : Nat) :
    parseIntJs (natToString n) = some (n : Int) := by
  have hchars : (natToString n).data = (natDigits n).map (fun d => Char.ofNat (48 + d)) := rfl
  obtain ⟨d0, ds, hds⟩ : ∃ d0 ds, natDigits n = d0 :: ds := by
    cases h : natDigits n with
    | nil => exact absurd h (natDigits_ne_nil n)
    | cons x xs => exact ⟨x, xs, rfl⟩
  have hmem : ∀ d ∈ d0 :: ds, d < 10 := by
    intro d hd
    exact natDigits_lt_ten n d (hds ▸ hd)
  have hd0 : d0 < 10 := hmem d0 (by simp)
  obtain ⟨hsp, hpl, hmi⟩ := digitChar_not_special d0 hd0
  rw [parseIntJs, hchars, hds]
  simp only [List.map_cons]
  have hdrop : List.dropWhile (fun c => decide (c = ' '))
      (Char.ofNat (48 + d0) :: List.map (fun d => Char.ofNat (48 + d)) ds) =
      Char.ofNat (48 + d0) :: List.map (fun d => Char.ofNat (48 + d)) ds := by
    rw [List.dropWhile_cons_of_neg]
    simp [hsp]
  simp only [hdrop, List.head?_cons, Option.some.injEq]
  have hcond : ¬ (Char.ofNat (48 + d0) = '+' ∨ Char.ofNat (48 + d0) = '-') := by
    push_neg
    exact ⟨hpl, hmi⟩
  rw [if_neg hcond]
  have htake : List.takeWhile Char.isDigit
      (Char.ofNat (48 + d0) :: List.map (fun d => Char.ofNat (48 + d)) ds) =
      Char.ofNat (48 + d0) :: List.map (fun d => Char.ofNat (48 + d)) ds := by
    apply takeWhile_of_all
    intro c hc
    rcases List.mem_cons.mp hc with h | h
    · subst h
      exact digitChar_isDigit d0 hd0
    · obtain ⟨d, hd, rfl⟩ := List.mem_map.mp h
      exact digitChar_isDigit d (hmem d (by simp [hd]))
  simp only [htake]
  have hempty : ¬ ((Char.ofNat (48 + d0) :: List.map (fun d => Char.ofNat (48 + d)) ds).isEmpty = true) := by
    simp
  rw [if_neg hempty]
  have hfold : (Char.ofNat (48 + d0) :: List.map (fun d => Char.ofNat (48 + d)) ds).foldl
      (fun a c => a * 10 + (c.toNat - 48)) 0 = n := by
    have h2 := foldl_digitChars (d0 :: ds) hmem 0
    simp only [List.map_cons] at h2
    rw [h2]
    rw [← hds, natDigits_foldl]
  rw [hfold]
  simp [hmi]

/-- C10: for every natural number `n` small enough that `n * 1,000,000` is
exactly representable (as a float, i.e. at most 2^53), converting to micro
units and back is the identity: `uscrtToScrt (scrtToUscrt n) = n` — the two
console-exposed unit converters are mutually inverse on such inputs. -/
theorem c10_unit_converters_inverse (n : Nat)
    (h : n * 1000000 ≤ 9007199254740992) :
    Metamask.uscrtToScrt (Metamask.scrtToUscrt n) = some ((n : ℚ)) := by
  rw [Metamask.uscrtToScrt, Metamask.scrtToUscrt, parseIntJs_natToString]
  simp only [Option.map]
  push_cast
  field_simp

/-- Witness for C10 at `n = 3`. -/
theorem c10_unit_converters_inverse_witness :
    3 * 1000000 ≤ 9007199254740992 ∧
      Metamask.uscrtToScrt (Metamask.scrtToUscrt 3) = some ((3 : ℚ)) :=
  ⟨by norm_num, c10_unit_converters_inverse 3 (by norm_num)⟩
/-- Computation rule for traces. -/
@[simp] lemma postsOf_nil : postsOf [] = [] := rfl
/-- Computation rule for traces. -/
@[simp] lemma postsOf_append (l1 l2 : List Event) :
    postsOf (l1 ++ l2) = postsOf l1 ++ postsOf l2 := List.filterMap_append l1 l2 _
/-- Computation rule for traces. -/
@[simp] lemma postsOf_cons_connect (l : List Event) :
    postsOf (Event.connect :: l) = postsOf l := rfl
/-- Computation rule for traces. -/
@[simp] lemma postsOf_cons_getAccount (a : String) (l : List Event) :
    postsOf (Event.getAccount a :: l) = postsOf l := rfl
/-- Computation rule for traces. -/
@[simp] lemma postsOf_cons_signMsg (s : List Nat) (l : List Event) :
    postsOf (Event.signMsg s :: l) = postsOf l := rfl
/-- Computation rule for traces. -/
@[simp] lemma postsOf_cons_personalSign (s t : String) (l : List Event) :
    postsOf (Event.personalSign s t :: l) = postsOf l := rfl
/-- Computation rule for traces. -/
@[simp] lemma postsOf_cons_post (b : String) (l : List Event) :
    postsOf (Event.post b :: l) = b :: postsOf l := rfl
/-- Computation rule for traces. -/
@[simp] lemma signedOf_nil : signedOf [] = [] := rfl
/-- Computation rule for traces. -/
@[simp] lemma signedOf_append (l1 l2 : List Event) :
    signedOf (l1 ++ l2) = signedOf l1 ++ signedOf l2 := List.filterMap_append l1 l2 _
/-- Computation rule for traces. -/
@[simp] lemma signedOf_cons_connect (l : List Event) :
    signedOf (Event.connect :: l) = signedOf l := rfl
/-- Computation rule for traces. -/
@[simp] lemma signedOf_cons_getAccount (a : String) (l : List Event) :
    signedOf (Event.getAccount a :: l) = signedOf l := rfl
/-- Computation rule for traces. -/
@[simp] lemma signedOf_cons_signMsg (s : List Nat) (l : List Event) :
    signedOf (Event.signMsg s :: l) = s :: signedOf l := rfl
/-- Computation rule for traces. -/
@[simp] lemma signedOf_cons_personalSign (s t : String) (l : List Event) :
    signedOf (Event.personalSign s t :: l) = signedOf l := rfl
/-- Computation rule for traces. -/
@[simp] lemma signedOf_cons_post (b : String) (l : List Event) :
    signedOf (Event.post b :: l) = signedOf l := rfl
/-- Computation rule for traces. -/
@[simp] lemma personalSignedOf_nil : personalSignedOf [] = [] := rfl
/-- Computation rule for traces. -/
@[simp] lemma personalSignedOf_append (l1 l2 : List Event) :
    personalSignedOf (l1 ++ l2) = personalSignedOf l1 ++ personalSignedOf l2 :=
  List.filterMap_append l1 l2 _
/-- Computation rule for traces. -/
@[simp] lemma personalSignedOf_cons_connect (l : List Event) :
    personalSignedOf (Event.connect :: l) = personalSignedOf l := rfl
/-- Computation rule for traces. -/
@[simp] lemma personalSignedOf_cons_getAccount (a : String) (l : List Event) :
    personalSignedOf (Event.getAccount a :: l) = personalSignedOf l := rfl
/-- Computation rule for traces. -/
@[simp] lemma personalSignedOf_cons_signMsg (s : List Nat) (l : List Event) :
    personalSignedOf (Event.signMsg s :: l) = personalSignedOf l := rfl
/-- Computation rule for traces. -/
@[simp] lemma personalSignedOf_cons_personalSign (s t : String) (l : List Event) :
    personalSignedOf (Event.personalSign s t :: l) = s :: personalSignedOf l := rfl
/-- Computation rule for traces. -/
@[simp] lemma personalSignedOf_cons_post (b : String) (l : List Event) :
    personalSignedOf (Event.post b :: l) = personalSignedOf l := rfl

/-- The Solflare `getAddress` trace is empty or a single connect. -/
lemma solfare_getAddress_trace (env : Solfare.Env) :
    (Solfare.getAddress env).2 = [] ∨ (Solfare.getAddress env).2 = [Event.connect] := by
  rw [Solfare.getAddress]
  split
  · exact Or.inl rfl
  · split <;> simp

/-- The Solflare `fetchAccountInfo` trace is one account query. -/
lemma solfare_fetch_trace (env : Solfare.Env) (addr : String) :
    (Solfare.fetchAccountInfo env addr).2 = [Event.getAccount addr] := by
  rw [Solfare.fetchAccountInfo]
  split
  · rfl
  · split <;> rfl

/-- The Solflare `broadcastTransaction` trace is one POST of the JSON-RPC
broadcast body. -/
lemma solfare_broadcast_trace (env : Solfare.Env) (tx : List Nat) :
    (Solfare.broadcastTransaction env tx).2
      = [Event.post (NolusTx.broadcastBody env.now tx)] := by
  rw [Solfare.broadcastTransaction]
  split <;> rfl

/-- A successful Solflare broadcast reflects the RPC answer to its body. -/
lemma solfare_broadcast_ok (env : Solfare.Env) (tx : List Nat)
    (r : BroadcastResult) (trB : List Event)
    (h : Solfare.broadcastTransaction env tx = (.ok r, trB)) :
    env.rpc (NolusTx.broadcastBody env.now tx) = .ok r := by
  rw [Solfare.broadcastTransaction] at h
  split at h <;> simp_all

/-- A failed Solflare broadcast comes from an `error` member in the RPC
response to its body. -/
lemma solfare_broadcast_err (env : Solfare.Env) (tx : List Nat)
    (e : String) (trB : List Event)
    (h : Solfare.broadcastTransaction env tx = (.error e, trB)) :
    ∃ msg, env.rpc (NolusTx.broadcastBody env.now tx) = .err msg := by
  rw [Solfare.broadcastTransaction] at h
  split at h
  · exact ⟨_, by assumption⟩
  · simp_all
/-- Outcome classification of the Solflare `sendTransaction`: success holds
exactly when the single broadcast got result code 0 (and then the hash is
`txhash || hash`); failures keep an error message; at most one POST. -/
lemma solfare_classification (env : Solfare.Env) (t a m : Option String) :
    ((Solfare.sendTransaction env t a m).1.success = true ↔
      ∃ body r, postsOf (Solfare.sendTransaction env t a m).2 = [body]
        ∧ env.rpc body = .ok r ∧ r.code = 0
        ∧ (Solfare.sendTransaction env t a m).1.hash = jsOrOpt r.txhash r.hash)
    ∧ ((Solfare.sendTransaction env t a m).1.success = false →
        (Solfare.sendTransaction env t a m).1.error.isSome = true)
    ∧ (postsOf (Solfare.sendTransaction env t a m).2).length ≤ 1 := by
  simp only [Solfare.sendTransaction]
  split
  case _ e tr heq =>
    have hga : postsOf tr = [] := by
      rcases (show tr = (Solfare.getAddress env).2 by rw [heq]) ▸
        solfare_getAddress_trace env with h | h <;> simp [h]
    refine ⟨by simp [hga], fun _ => rfl, by simp [hga]⟩
  case _ ga tr heq =>
    have hga : postsOf tr = [] := by
      rcases (show tr = (Solfare.getAddress env).2 by rw [heq]) ▸
        solfare_getAddress_trace env with h | h <;> simp [h]
    split
    case _ e tr2 heq2 =>
      have hf : tr2 = [Event.getAccount ga.bech32Addr] :=
        (show tr2 = (Solfare.fetchAccountInfo env ga.bech32Addr).2 by rw [heq2]) ▸
          solfare_fetch_trace env ga.bech32Addr
      refine ⟨by simp [hga, hf], fun _ => rfl, by simp [hga, hf]⟩
    case _ acct tr2 heq2 =>
      have hf : tr2 = [Event.getAccount ga.bech32Addr] :=
        (show tr2 = (Solfare.fetchAccountInfo env ga.bech32Addr).2 by rw [heq2]) ▸
          solfare_fetch_trace env ga.bech32Addr
      split
      case _ hsig =>
        refine ⟨by simp [hga, hf], fun _ => rfl, by simp [hga, hf]⟩
      case _ sig hsig =>
        split
        case _ e trB heqB =>
          have hb : trB = [Event.post (NolusTx.broadcastBody env.now _)] :=
            (show trB = (Solfare.broadcastTransaction env _).2 by rw [heqB]) ▸
              solfare_broadcast_trace env _
          obtain ⟨msg, hmsg⟩ := solfare_broadcast_err env _ e trB heqB
          refine ⟨?_, fun _ => rfl, by simp [hga, hf, hb]⟩
          constructor
          · intro hfalse
            exact absurd hfalse (by simp)
          · rintro ⟨body, r, hposts, hrpc, hcode, hhash⟩
            simp [hga, hf, hb] at hposts
            subst hposts
            rw [hmsg] at hrpc
            cases hrpc
        case _ r trB heqB =>
          have hb : trB = [Event.post (NolusTx.broadcastBody env.now _)] :=
            (show trB = (Solfare.broadcastTransaction env _).2 by rw [heqB]) ▸
              solfare_broadcast_trace env _
          have hok := solfare_broadcast_ok env _ r trB heqB
          split
          case _ hcode0 =>
            refine ⟨?_, ?_, ?_⟩
            · constructor
              · intro
                exact ⟨NolusTx.broadcastBody env.now _, r, by simp [hga, hf, hb], hok, hcode0, rfl⟩
              · intro
                rfl
            · intro h
              simp at h
            · simp [hga, hf, hb]
          case _ hcode0 =>
            refine ⟨?_, fun _ => rfl, by simp [hga, hf, hb]⟩
            constructor
            · intro hfalse
              exact absurd hfalse (by simp)
            · rintro ⟨body, r', hposts, hrpc, hcode, hhash⟩
              simp [hga, hf, hb] at hposts
              subst hposts
              rw [hok] at hrpc
              cases hrpc
              exact absurd hcode hcode0
/-- The MetaMask `getAddress` trace is empty or a connect followed by the
pubkey-generation `personal_sign`. -/
lemma metamask_getAddress_trace (env : Metamask.Env) :
    (Metamask.getAddress env).2 = [] ∨
      (Metamask.getAddress env).2
        = [Event.connect, Event.personalSign Metamask.pubkeyGenMessage env.ethAddress] := by
  rw [Metamask.getAddress]
  split
  · exact Or.inl rfl
  · split <;> simp

/-- The MetaMask `fetchAccountInfo` trace is one account query. -/
lemma metamask_fetch_trace (env : Metamask.Env) (addr : String) :
    (Metamask.fetchAccountInfo env addr).2 = [Event.getAccount addr] := by
  rw [Metamask.fetchAccountInfo]
  split
  · rfl
  · split <;> rfl

/-- Outcome classification of the MetaMask `sendTransaction`: a resolved
success value arises exactly when the single broadcast got result code 0, a
resolved failure value exactly when it got a non-zero code (every other
failure is thrown); at most one POST. -/
lemma metamask_classification (env : Metamask.Env) (t a m : Option String) :
    ((∃ v, (Metamask.sendTransaction env t a m).1 = .value v ∧ v.success = true) ↔
      ∃ body r, postsOf (Metamask.sendTransaction env t a m).2 = [body]
        ∧ env.rpc body = .ok r ∧ r.code = 0)
    ∧ ((∃ v, (Metamask.sendTransaction env t a m).1 = .value v ∧ v.success = false) ↔
      ∃ body r, postsOf (Metamask.sendTransaction env t a m).2 = [body]
        ∧ env.rpc body = .ok r ∧ ¬ r.code = 0)
    ∧ (postsOf (Metamask.sendTransaction env t a m).2).length ≤ 1 := by
  simp only [Metamask.sendTransaction]
  split
  case _ e tr heq =>
    have hga : postsOf tr = [] := by
      rcases (show tr = (Metamask.getAddress env).2 by rw [heq]) ▸
        metamask_getAddress_trace env with h | h <;> simp [h]
    refine ⟨by simp [hga], by simp [hga], by simp [hga]⟩
  case _ ga tr heq =>
    have hga : postsOf tr = [] := by
      rcases (show tr = (Metamask.getAddress env).2 by rw [heq]) ▸
        metamask_getAddress_trace env with h | h <;> simp [h]
    split
    case _ e tr2 heq2 =>
      have hf : tr2 = [Event.getAccount ga.bech32Addr] :=
        (show tr2 = (Metamask.fetchAccountInfo env ga.bech32Addr).2 by rw [heq2]) ▸
          metamask_fetch_trace env ga.bech32Addr
      refine ⟨by simp [hga, hf], by simp [hga, hf], by simp [hga, hf]⟩
    case _ acct tr2 heq2 =>
      have hf : tr2 = [Event.getAccount ga.bech32Addr] :=
        (show tr2 = (Metamask.fetchAccountInfo env ga.bech32Addr).2 by rw [heq2]) ▸
          metamask_fetch_trace env ga.bech32Addr
      split
      case _ hps =>
        refine ⟨by simp [hga, hf], by simp [hga, hf], by simp [hga, hf]⟩
      case _ sigResult hps =>
        split
        case _ hhex =>
          refine ⟨by simp [hga, hf], by simp [hga, hf], by simp [hga, hf]⟩
        case _ sig hhex =>
          split
          case _ msg hrpc =>
            refine ⟨?_, ?_, by simp [hga, hf]⟩
            · constructor
              · rintro ⟨v, hv, hsucc⟩
                cases hv
              · rintro ⟨body, r, hposts, hrpcb, hcode⟩
                simp [hga, hf] at hposts
                subst hposts
                rw [hrpc] at hrpcb
                cases hrpcb
            · constructor
              · rintro ⟨v, hv, hsucc⟩
                cases hv
              · rintro ⟨body, r, hposts, hrpcb, hcode⟩
                simp [hga, hf] at hposts
                subst hposts
                rw [hrpc] at hrpcb
                cases hrpcb
          case _ r hrpc =>
            split
            case _ hcode0 =>
              refine ⟨?_, ?_, by simp [hga, hf]⟩
              · constructor
                · intro
                  exact ⟨_, r, by simp [hga, hf], hrpc, hcode0⟩
                · intro
                  exact ⟨_, ⟨rfl, rfl⟩⟩
              · constructor
                · rintro ⟨v, hv, hsucc⟩
                  cases hv
                  cases hsucc
                · rintro ⟨body, r', hposts, hrpcb, hcode⟩
                  simp [hga, hf] at hposts
                  subst hposts
                  rw [hrpc] at hrpcb
                  cases hrpcb
                  exact absurd hcode0 hcode
            case _ hcode0 =>
              refine ⟨?_, ?_, by simp [hga, hf]⟩
              · constructor
                · rintro ⟨v, hv, hsucc⟩
                  cases hv
                  cases hsucc
                · rintro ⟨body, r', hposts, hrpcb, hcode⟩
                  simp [hga, hf] at hposts
                  subst hposts
                  rw [hrpc] at hrpcb
                  cases hrpcb
                  exact absurd hcode hcode0
              · constructor
                · intro
                  exact ⟨_, r, by simp [hga, hf], hrpc, hcode0⟩
                · intro
                  exact ⟨_, ⟨rfl, rfl⟩⟩
/-- Every POST of a Solflare run carries the JSON-RPC broadcast envelope of
some transaction bytes. -/
lemma solfare_posts_shape (env : Solfare.Env) (t a m : Option String) :
    postsOf (Solfare.sendTransaction env t a m).2 = [] ∨
      ∃ tx, postsOf (Solfare.sendTransaction env t a m).2
        = [NolusTx.broadcastBody env.now tx] := by
  simp only [Solfare.sendTransaction]
  split
  case _ e tr heq =>
    have hga : postsOf tr = [] := by
      rcases (show tr = (Solfare.getAddress env).2 by rw [heq]) ▸
        solfare_getAddress_trace env with h | h <;> simp [h]
    exact Or.inl (by simp [hga])
  case _ ga tr heq =>
    have hga : postsOf tr = [] := by
      rcases (show tr = (Solfare.getAddress env).2 by rw [heq]) ▸
        solfare_getAddress_trace env with h | h <;> simp [h]
    split
    case _ e tr2 heq2 =>
      have hf : tr2 = [Event.getAccount ga.bech32Addr] :=
        (show tr2 = (Solfare.fetchAccountInfo env ga.bech32Addr).2 by rw [heq2]) ▸
          solfare_fetch_trace env ga.bech32Addr
      exact Or.inl (by simp [hga, hf])
    case _ acct tr2 heq2 =>
      have hf : tr2 = [Event.getAccount ga.bech32Addr] :=
        (show tr2 = (Solfare.fetchAccountInfo env ga.bech32Addr).2 by rw [heq2]) ▸
          solfare_fetch_trace env ga.bech32Addr
      split
      case _ hsig => exact Or.inl (by simp [hga, hf])
      case _ sig hsig =>
        split
        case _ e trB heqB =>
          obtain ⟨tx, hb⟩ : ∃ tx, trB = [Event.post (NolusTx.broadcastBody env.now tx)] :=
            ⟨_, (show trB = (Solfare.broadcastTransaction env _).2 by rw [heqB]) ▸
              solfare_broadcast_trace env _⟩
          exact Or.inr ⟨tx, by simp [hga, hf, hb]⟩
        case _ r trB heqB =>
          obtain ⟨tx, hb⟩ : ∃ tx, trB = [Event.post (NolusTx.broadcastBody env.now tx)] :=
            ⟨_, (show trB = (Solfare.broadcastTransaction env _).2 by rw [heqB]) ▸
              solfare_broadcast_trace env _⟩
          split
          case _ hcode0 => exact Or.inr ⟨tx, by simp [hga, hf, hb]⟩
          case _ hcode0 => exact Or.inr ⟨tx, by simp [hga, hf, hb]⟩

/-- Every POST of a MetaMask run carries the JSON-RPC broadcast envelope of
some transaction bytes. -/
lemma metamask_posts_shape (env : Metamask.Env) (t a m : Option String) :
    postsOf (Metamask.sendTransaction env t a m).2 = [] ∨
      ∃ tx, postsOf (Metamask.sendTransaction env t a m).2
        = [Metamask.broadcastBody env.now tx] := by
  simp only [Metamask.sendTransaction]
  split
  case _ e tr heq =>
    have hga : postsOf tr = [] := by
      rcases (show tr = (Metamask.getAddress env).2 by rw [heq]) ▸
        metamask_getAddress_trace env with h | h <;> simp [h]
    exact Or.inl (by simp [hga])
  case _ ga tr heq =>
    have hga : postsOf tr = [] := by
      rcases (show tr = (Metamask.getAddress env).2 by rw [heq]) ▸
        metamask_getAddress_trace env with h | h <;> simp [h]
    split
    case _ e tr2 heq2 =>
      have hf : tr2 = [Event.getAccount ga.bech32Addr] :=
        (show tr2 = (Metamask.fetchAccountInfo env ga.bech32Addr).2 by rw [heq2]) ▸
          metamask_fetch_trace env ga.bech32Addr
      exact Or.inl (by simp [hga, hf])
    case _ acct tr2 heq2 =>
      have hf : tr2 = [Event.getAccount ga.bech32Addr] :=
        (show tr2 = (Metamask.fetchAccountInfo env ga.bech32Addr).2 by rw [heq2]) ▸
          metamask_fetch_trace env ga.bech32Addr
      split
      case _ hps => exact Or.inl (by simp [hga, hf])
      case _ sigResult hps =>
        split
        case _ hhex => exact Or.inl (by simp [hga, hf])
        case _ sig hhex =>
          have htx : ∃ tx : List Nat, tx = TxRaw.encode
              { bodyBytes := (Metamask.txBody ga.bech32Addr (jsOr t ga.bech32Addr)
                  (jsOr a "1000000") (jsOr m "Neutron Network transaction")).encode
                authInfoBytes := (Metamask.authInfo ga.pubkeyAny acct.sequence).encode
                signatures := [sig] } := ⟨_, rfl⟩
          obtain ⟨tx, htx⟩ := htx
          split
          case _ msg hrpc => exact Or.inr ⟨tx, by simp [hga, hf, htx]⟩
          case _ r hrpc =>
            split
            case _ hcode0 => exact Or.inr ⟨tx, by simp [hga, hf, htx]⟩
            case _ hcode0 => exact Or.inr ⟨tx, by simp [hga, hf, htx]⟩


/-- C1: for every connected wallet public key, the derived chain address is
computed per chain convention — in the Phantom and Solflare scripts it is the
bech32 encoding, with prefix `nolus`, of the first 20 bytes of SHA-256 of the
ed25519 public key; in the MetaMask script it is the bech32 encoding, with
prefix `neutron`, of RIPEMD-160 of SHA-256 of the 33-byte compressed
secp256k1 public key (and the compressed key is indeed 33 bytes). -/
theorem c1_address_derivation
    (es : Solfare.Env) (ep ep2 : Phantom.Env) (em : Metamask.Env)
    (pk pkp pkp2 : List Nat)
    (hs1 : es.isSolflare = true) (hs2 : es.connectOk = true)
    (hs3 : es.publicKey = some pk)
    (hp1 : ep.hasProvider = true) (hp2 : ep.connectPk = some pkp)
    (hq1 : ep2.hasProvider = true) (hq2 : ep2.isPhantom = true)
    (hq3 : ep2.connectPk = some pkp2)
    (hm1 : em.requestAccountsErr = none)
    (hm2 : ∃ s, em.personalSign Metamask.pubkeyGenMessage = some s) :
    (Solfare.getAddress es).1.map (fun r => r.bech32Addr) = .ok (specNolusAddress pk)
    ∧ (Phantom.getAddress ep).1.map (fun r => r.bech32Addr) = .ok (specNolusAddress pkp)
    ∧ (Phantom2.getAddress ep2).1.map (fun r => r.bech32Addr) = .ok (specNolusAddress pkp2)
    ∧ (Metamask.getAddress em).1.map (fun r => r.bech32Addr)
        = .ok (specNeutronAddress (Metamask.compressPubkey em.recoveredPubkey))
    ∧ (Metamask.compressPubkey em.recoveredPubkey).length = 33 := by
  obtain ⟨s, hs⟩ := hm2
  refine ⟨?_, ?_, ?_, ?_, ?_⟩
  · rw [Solfare.getAddress, hs1, hs2, hs3]
    simp [specNolusAddress, NolusTx.addressHrp, Except.map]
  · rw [Phantom.getAddress, hp1, hp2]
    simp [specNolusAddress, NolusTx.addressHrp, Except.map]
  · rw [Phantom2.getAddress, hq1, hq2, hq3]
    simp [specNolusAddress, NolusTx.addressHrp, Except.map]
  · rw [Metamask.getAddress, hm1, hs]
    simp [specNeutronAddress, Metamask.addressHrp, Except.map]
  · rw [Metamask.compressPubkey]
    simp

/-- Witness for C1 on the concrete environments. -/
theorem c1_address_derivation_witness :
    envS0.publicKey = some pk0 ∧ envP0.connectPk = some pk0 ∧
      envM0.requestAccountsErr = none ∧
      ((Solfare.getAddress envS0).1.map (fun r => r.bech32Addr)
          = .ok (specNolusAddress pk0)
        ∧ (Phantom.getAddress envP0).1.map (fun r => r.bech32Addr)
            = .ok (specNolusAddress pk0)
        ∧ (Phantom2.getAddress envP0).1.map (fun r => r.bech32Addr)
            = .ok (specNolusAddress pk0)
        ∧ (Metamask.getAddress envM0).1.map (fun r => r.bech32Addr)
            = .ok (specNeutronAddress (Metamask.compressPubkey envM0.recoveredPubkey))
        ∧ (Metamask.compressPubkey envM0.recoveredPubkey).length = 33) :=
  ⟨rfl, rfl, rfl,
    c1_address_derivation envS0 envP0 envP0 envM0 pk0 pk0 pk0
      rfl rfl rfl rfl rfl rfl rfl rfl rfl ⟨"0xaabbcc", rfl⟩⟩

/-- C5: address derivation is a pure, deterministic function of the public
key — two successfully connected runs with the same wallet public key bytes
derive the same bech32 address, whatever the rest of the environment
(accounts, RPC answers, signer, clock) does. -/
theorem c5_derivation_deterministic
    (e1 e2 : Solfare.Env) (m1 m2 : Metamask.Env)
    (hpk : e1.publicKey = e2.publicKey)
    (h1 : e1.isSolflare = true) (h2 : e2.isSolflare = true)
    (h3 : e1.connectOk = true) (h4 : e2.connectOk = true)
    (hrk : m1.recoveredPubkey = m2.recoveredPubkey)
    (hm1 : m1.requestAccountsErr = none) (hm2 : m2.requestAccountsErr = none)
    (hp1 : ∃ s, m1.personalSign Metamask.pubkeyGenMessage = some s)
    (hp2 : ∃ s, m2.personalSign Metamask.pubkeyGenMessage = some s) :
    (Solfare.getAddress e1).1.map (fun r => r.bech32Addr)
      = (Solfare.getAddress e2).1.map (fun r => r.bech32Addr)
    ∧ (Metamask.getAddress m1).1.map (fun r => r.bech32Addr)
      = (Metamask.getAddress m2).1.map (fun r => r.bech32Addr) := by
  obtain ⟨s1, hs1⟩ := hp1
  obtain ⟨s2, hs2⟩ := hp2
  constructor
  · simp only [Solfare.getAddress]
    rw [h1, h2, h3, h4, hpk]
  · simp only [Metamask.getAddress]
    rw [hm1, hm2, hs1, hs2, hrk]
    simp [Except.map]

/-- Witness for C5: the pairs `envS0`/`envS1` and `envM0`/`envM1` share only
the wallet key. -/
theorem c5_derivation_deterministic_witness :
    envS0.publicKey = envS1.publicKey ∧ envM0.recoveredPubkey = envM1.recoveredPubkey ∧
      ((Solfare.getAddress envS0).1.map (fun r => r.bech32Addr)
          = (Solfare.getAddress envS1).1.map (fun r => r.bech32Addr)
        ∧ (Metamask.getAddress envM0).1.map (fun r => r.bech32Addr)
            = (Metamask.getAddress envM1).1.map (fun r => r.bech32Addr)) :=
  ⟨rfl, rfl,
    c5_derivation_deterministic envS0 envS1 envM0 envM1
      rfl rfl rfl rfl rfl rfl rfl rfl ⟨"0xaabbcc", rfl⟩ ⟨"0x99", rfl⟩⟩

/-- C3: every failure of `sendTransaction` (rejected connection, missing
wallet, RPC-level error, non-zero broadcast code) is caught and surfaced
either as a thrown error (MetaMask variant) or as a `success := false` result
carrying an error (Solflare variant, whose outer catch makes throwing
impossible by construction); `success := true` with the broadcast hash is
returned exactly when the broadcast result code equals 0; and no run
broadcasts more than once (no retries). -/
theorem c3_failures_surfaced :
    (∀ (env : Solfare.Env) (t a m : Option String),
      ((Solfare.sendTransaction env t a m).1.success = true ↔
        ∃ body r, postsOf (Solfare.sendTransaction env t a m).2 = [body]
          ∧ env.rpc body = .ok r ∧ r.code = 0
          ∧ (Solfare.sendTransaction env t a m).1.hash = jsOrOpt r.txhash r.hash)
      ∧ ((Solfare.sendTransaction env t a m).1.success = true ∨
          (Solfare.sendTransaction env t a m).1.error.isSome = true)
      ∧ (postsOf (Solfare.sendTransaction env t a m).2).length ≤ 1)
    ∧ (∀ (env : Metamask.Env) (t a m : Option String),
      ((∃ v, (Metamask.sendTransaction env t a m).1 = .value v ∧ v.success = true) ↔
        ∃ body r, postsOf (Metamask.sendTransaction env t a m).2 = [body]
          ∧ env.rpc body = .ok r ∧ r.code = 0)
      ∧ ((∃ v, (Metamask.sendTransaction env t a m).1 = .value v ∧ v.success = false) ↔
        ∃ body r, postsOf (Metamask.sendTransaction env t a m).2 = [body]
          ∧ env.rpc body = .ok r ∧ ¬ r.code = 0)
      ∧ ((∃ e, (Metamask.sendTransaction env t a m).1 = .thrown e) ∨
          (∃ v, (Metamask.sendTransaction env t a m).1 = .value v))
      ∧ (postsOf (Metamask.sendTransaction env t a m).2).length ≤ 1) := by
  constructor
  · intro env t a m
    obtain ⟨hA, hB, hC⟩ := solfare_classification env t a m
    refine ⟨hA, ?_, hC⟩
    cases hsucc : (Solfare.sendTransaction env t a m).1.success with
    | true => exact Or.inl rfl
    | false => exact Or.inr (hB hsucc)
  · intro env t a m
    obtain ⟨hA, hB, hC⟩ := metamask_classification env t a m
    refine ⟨hA, hB, ?_, hC⟩
    cases h : (Metamask.sendTransaction env t a m).1 with
    | thrown e => exact Or.inl ⟨e, rfl⟩
    | value v => exact Or.inr ⟨v, rfl⟩

/-- C7: every broadcast is a JSON-RPC POST whose body is the fixed envelope
with exactly the fields `jsonrpc` (`"2.0"`), `id`, `method`, `params`, with
method `broadcast_tx_sync` and `params.tx` the base64 of the signed
transaction bytes; the network-status helper POSTs the same envelope with
method `abci_info` and empty params. -/
theorem c7_rpc_envelope :
    (∀ (idv : Nat) (tx : List Nat), NolusTx.broadcastBody idv tx
        = specRpcEnvelope idv "broadcast_tx_sync" (.obj [("tx", .str (toBase64 tx))]))
    ∧ (∀ (idv : Nat) (tx : List Nat), Metamask.broadcastBody idv tx
        = specRpcEnvelope idv "broadcast_tx_sync" (.obj [("tx", .str (toBase64 tx))]))
    ∧ Metamask.checkTestnetBody = specRpcEnvelope 1 "abci_info" (.obj [])
    ∧ (∀ env : Metamask.Env,
        postsOf (Metamask.checkTestnet env).2 = [Metamask.checkTestnetBody])
    ∧ (∀ (env : Solfare.Env) (t a m : Option String),
        postsOf (Solfare.sendTransaction env t a m).2 = [] ∨
          ∃ tx, postsOf (Solfare.sendTransaction env t a m).2
            = [NolusTx.broadcastBody env.now tx])
    ∧ (∀ (env : Metamask.Env) (t a m : Option String),
        postsOf (Metamask.sendTransaction env t a m).2 = [] ∨
          ∃ tx, postsOf (Metamask.sendTransaction env t a m).2
            = [Metamask.broadcastBody env.now tx]) :=
  ⟨fun _ _ => rfl, fun _ _ => rfl, rfl, fun _ => rfl,
    solfare_posts_shape, metamask_posts_shape⟩
/-- Computation rule for the fetch-before-sign scanner. -/
@[simp] lemma noTxBeforeFetch_nil : noTxBeforeFetch [] = true := rfl
/-- Computation rule for the fetch-before-sign scanner. -/
@[simp] lemma noTxBeforeFetch_connect (l : List Event) :
    noTxBeforeFetch (Event.connect :: l) = noTxBeforeFetch l := rfl
/-- Computation rule for the fetch-before-sign scanner. -/
@[simp] lemma noTxBeforeFetch_personalSign (s t : String) (l : List Event) :
    noTxBeforeFetch (Event.personalSign s t :: l) = noTxBeforeFetch l := rfl
/-- Computation rule for the fetch-before-sign scanner. -/
@[simp] lemma noTxBeforeFetch_getAccount (a : String) (l : List Event) :
    noTxBeforeFetch (Event.getAccount a :: l) = true := rfl

/-- No Solflare run signs or broadcasts before its account fetch. -/
lemma solfare_noTxBeforeFetch (env : Solfare.Env) (t a m : Option String) :
    noTxBeforeFetch (Solfare.sendTransaction env t a m).2 = true := by
  simp only [Solfare.sendTransaction]
  split
  case _ e tr heq =>
    rcases (show tr = (Solfare.getAddress env).2 by rw [heq]) ▸
      solfare_getAddress_trace env with h | h <;> simp [h]
  case _ ga tr heq =>
    have hga := (show tr = (Solfare.getAddress env).2 by rw [heq]) ▸
      solfare_getAddress_trace env
    split
    case _ e tr2 heq2 =>
      have hf : tr2 = [Event.getAccount ga.bech32Addr] :=
        (show tr2 = (Solfare.fetchAccountInfo env ga.bech32Addr).2 by rw [heq2]) ▸
          solfare_fetch_trace env ga.bech32Addr
      rcases hga with h | h <;> simp [h, hf]
    case _ acct tr2 heq2 =>
      have hf : tr2 = [Event.getAccount ga.bech32Addr] :=
        (show tr2 = (Solfare.fetchAccountInfo env ga.bech32Addr).2 by rw [heq2]) ▸
          solfare_fetch_trace env ga.bech32Addr
      split
      case _ hsig => rcases hga with h | h <;> simp [h, hf]
      case _ sig hsig =>
        split
        case _ e trB heqB => rcases hga with h | h <;> simp [h, hf]
        case _ r trB heqB =>
          split
          case _ h0 => rcases hga with h | h <;> simp [h, hf]
          case _ h0 => rcases hga with h | h <;> simp [h, hf]

/-- No MetaMask run broadcasts before its account fetch (the only earlier
`personal_sign` is the pubkey-generation one inside `getAddress`). -/
lemma metamask_noTxBeforeFetch (env : Metamask.Env) (t a m : Option String) :
    noTxBeforeFetch (Metamask.sendTransaction env t a m).2 = true := by
  simp only [Metamask.sendTransaction]
  split
  case _ e tr heq =>
    rcases (show tr = (Metamask.getAddress env).2 by rw [heq]) ▸
      metamask_getAddress_trace env with h | h <;> simp [h]
  case _ ga tr heq =>
    have hga := (show tr = (Metamask.getAddress env).2 by rw [heq]) ▸
      metamask_getAddress_trace env
    split
    case _ e tr2 heq2 =>
      have hf : tr2 = [Event.getAccount ga.bech32Addr] :=
        (show tr2 = (Metamask.fetchAccountInfo env ga.bech32Addr).2 by rw [heq2]) ▸
          metamask_fetch_trace env ga.bech32Addr
      rcases hga with h | h <;> simp [h, hf]
    case _ acct tr2 heq2 =>
      have hf : tr2 = [Event.getAccount ga.bech32Addr] :=
        (show tr2 = (Metamask.fetchAccountInfo env ga.bech32Addr).2 by rw [heq2]) ▸
          metamask_fetch_trace env ga.bech32Addr
      split
      case _ hps => rcases hga with h | h <;> simp [h, hf]
      case _ sigResult hps =>
        split
        case _ hhex => rcases hga with h | h <;> simp [h, hf]
        case _ sig hhex =>
          split
          case _ msg hrpc => rcases hga with h | h <;> simp [h, hf]
          case _ r hrpc =>
            split
            case _ h0 => rcases hga with h | h <;> simp [h, hf]
            case _ h0 => rcases hga with h | h <;> simp [h, hf]

/-- The one message a Solflare run hands to the wallet is the SignDoc built
from the account data fetched in that same run. -/
lemma solfare_signed_eq (env : Solfare.Env) (t a m : Option String)
    (ga : NolusAddressResult) (acct : AccountData) (trg trf : List Event)
    (hga : Solfare.getAddress env = (.ok ga, trg))
    (hfa : Solfare.fetchAccountInfo env ga.bech32Addr = (.ok acct, trf)) :
    signedOf (Solfare.sendTransaction env t a m).2
      = [(NolusTx.signDoc
          ((NolusTx.txBody ga.bech32Addr (jsOr t ga.bech32Addr) (jsOr a "1000000")
            (jsOr m "solflare-ed25519-test")).encode)
          ((NolusTx.authInfo ga.pubkeyAnyTypeUrl ga.pubkeyAnyValue
            acct.sequence).encode)
          acct.accountNumber).encode] := by
  have hgt := (show trg = (Solfare.getAddress env).2 by rw [hga]) ▸
    solfare_getAddress_trace env
  have hft : trf = [Event.getAccount ga.bech32Addr] :=
    (show trf = (Solfare.fetchAccountInfo env ga.bech32Addr).2 by rw [hfa]) ▸
      solfare_fetch_trace env ga.bech32Addr
  simp only [Solfare.sendTransaction, hga, hfa]
  split
  case _ hsig => rcases hgt with h | h <;> simp [h, hft]
  case _ sig hsig =>
    split
    case _ e trB heqB =>
      obtain ⟨tx, hb⟩ : ∃ tx, trB = [Event.post (NolusTx.broadcastBody env.now tx)] :=
        ⟨_, (show trB = (Solfare.broadcastTransaction env _).2 by rw [heqB]) ▸
          solfare_broadcast_trace env _⟩
      rcases hgt with h | h <;> simp [h, hft, hb]
    case _ r trB heqB =>
      obtain ⟨tx, hb⟩ : ∃ tx, trB = [Event.post (NolusTx.broadcastBody env.now tx)] :=
        ⟨_, (show trB = (Solfare.broadcastTransaction env _).2 by rw [heqB]) ▸
          solfare_broadcast_trace env _⟩
      split
      case _ h0 => rcases hgt with h | h <;> simp [h, hft, hb]
      case _ h0 => rcases hgt with h | h <;> simp [h, hft, hb]
/-- The transaction payload a MetaMask run hands to `personal_sign` is the
hex of the JSON document built from the account data fetched in that run. -/
lemma metamask_personalSigned_eq (env : Metamask.Env) (t a m : Option String)
    (ga : Metamask.AddressResult) (acct : AccountData) (trg trf : List Event)
    (hga : Metamask.getAddress env = (.ok ga, trg))
    (hfa : Metamask.fetchAccountInfo env ga.bech32Addr = (.ok acct, trf)) :
    personalSignedOf (Metamask.sendTransaction env t a m).2
      = personalSignedOf trg ++
        ["0x" ++ toHex (utf8 (stringify4 (Metamask.exactSignDoc
          acct.accountNumber acct.sequence ga.bech32Addr t a m)))] := by
  have hft : trf = [Event.getAccount ga.bech32Addr] :=
    (show trf = (Metamask.fetchAccountInfo env ga.bech32Addr).2 by rw [hfa]) ▸
      metamask_fetch_trace env ga.bech32Addr
  simp only [Metamask.sendTransaction, hga, hfa]
  split
  case _ hps => simp [hft]
  case _ sigResult hps =>
    split
    case _ hhex => simp [hft]
    case _ sig hhex =>
      split
      case _ msg hrpc => simp [hft]
      case _ r hrpc =>
        split
        case _ h0 => simp [hft]
        case _ h0 => simp [hft]

/-- C6: on every `sendTransaction` call the account number and sequence are
fetched from the node before any transaction is signed or broadcast, and the
freshly fetched values are the ones placed in the transaction: the signed
SignDoc embeds an `AuthInfo` whose `SignerInfo.sequence` is the fetched
sequence and carries the fetched account number (and, in the MetaMask
variant, the JSON sign document's `sequence` and `account_number` fields
hold the fetched values while its `AuthInfo` holds the fetched sequence). -/
theorem c6_fresh_account_state
    (env : Solfare.Env) (t a m : Option String)
    (ga : NolusAddressResult) (acct : AccountData) (trg trf : List Event)
    (menv : Metamask.Env) (t2 a2 m2 : Option String)
    (gam : Metamask.AddressResult) (acctm : AccountData) (trgm trfm : List Event)
    (hga : Solfare.getAddress env = (.ok ga, trg))
    (hfa : Solfare.fetchAccountInfo env ga.bech32Addr = (.ok acct, trf))
    (hgam : Metamask.getAddress menv = (.ok gam, trgm))
    (hfam : Metamask.fetchAccountInfo menv gam.bech32Addr = (.ok acctm, trfm)) :
    (∀ (env' : Solfare.Env) (t' a' m' : Option String),
      noTxBeforeFetch (Solfare.sendTransaction env' t' a' m').2 = true)
    ∧ (∀ (env' : Metamask.Env) (t' a' m' : Option String),
      noTxBeforeFetch (Metamask.sendTransaction env' t' a' m').2 = true)
    ∧ signedOf (Solfare.sendTransaction env t a m).2
      = [(NolusTx.signDoc
          ((NolusTx.txBody ga.bech32Addr (jsOr t ga.bech32Addr) (jsOr a "1000000")
            (jsOr m "solflare-ed25519-test")).encode)
          ((NolusTx.authInfo ga.pubkeyAnyTypeUrl ga.pubkeyAnyValue
            acct.sequence).encode)
          acct.accountNumber).encode]
    ∧ (∀ tu v s, (NolusTx.authInfo tu v s).signerInfos.map
        (fun si => si.sequence) = [s])
    ∧ (∀ b ai n, (NolusTx.signDoc b ai n).accountNumber = n)
    ∧ personalSignedOf (Metamask.sendTransaction menv t2 a2 m2).2
      = personalSignedOf trgm ++
        ["0x" ++ toHex (utf8 (stringify4 (Metamask.exactSignDoc
          acctm.accountNumber acctm.sequence gam.bech32Addr t2 a2 m2)))]
    ∧ (∀ an seq addr tz az mz,
        (Metamask.exactSignDoc an seq addr tz az mz).get "sequence"
          = some (.str (natToString seq)))
    ∧ (∀ an seq addr tz az mz,
        (Metamask.exactSignDoc an seq addr tz az mz).get "account_number"
          = some (.str (natToString an)))
    ∧ (∀ pka s, (Metamask.authInfo pka s).signerInfos.map
        (fun si => si.sequence) = [s]) :=
  ⟨solfare_noTxBeforeFetch, metamask_noTxBeforeFetch,
    solfare_signed_eq env t a m ga acct trg trf hga hfa,
    fun _ _ _ => rfl, fun _ _ _ => rfl,
    metamask_personalSigned_eq menv t2 a2 m2 gam acctm trgm trfm hgam hfam,
    fun _ _ _ _ _ _ => rfl, fun _ _ _ _ _ _ => rfl, fun _ _ => rfl⟩

/-- Witness for C6 on the concrete environments. -/
theorem c6_fresh_account_state_witness :
    Solfare.getAddress envS0 = (.ok ga0, [Event.connect]) ∧
      Metamask.getAddress envM0
        = (.ok gaM0, [Event.connect,
            Event.personalSign Metamask.pubkeyGenMessage "0xeeff"]) ∧
      signedOf (Solfare.sendTransaction envS0 none none none).2
        = [(NolusTx.signDoc
            ((NolusTx.txBody ga0.bech32Addr (jsOr none ga0.bech32Addr)
              (jsOr none "1000000") (jsOr none "solflare-ed25519-test")).encode)
            ((NolusTx.authInfo ga0.pubkeyAnyTypeUrl ga0.pubkeyAnyValue
              acct0.sequence).encode)
            acct0.accountNumber).encode] :=
  ⟨rfl, rfl,
    (c6_fresh_account_state envS0 none none none ga0 acct0
      [Event.connect] [Event.getAccount ga0.bech32Addr]
      envM0 none none none gaM0 acct0
      [Event.connect, Event.personalSign Metamask.pubkeyGenMessage "0xeeff"]
      [Event.getAccount gaM0.bech32Addr]
      rfl rfl rfl rfl).2.2.1⟩
/-- The Phantom `getAddress` trace is empty or a single connect. -/
lemma phantom_getAddress_trace (env : Phantom.Env) :
    (Phantom.getAddress env).2 = [] ∨ (Phantom.getAddress env).2 = [Event.connect] := by
  rw [Phantom.getAddress]
  split
  · exact Or.inl rfl
  · split <;> simp

/-- The Phantom `fetchAccountInfo` trace is one account query. -/
lemma phantom_fetch_trace (env : Phantom.Env) (addr : String) :
    (Phantom.fetchAccountInfo env addr).2 = [Event.getAccount addr] := by
  rw [Phantom.fetchAccountInfo]
  split
  · rfl
  · split <;> rfl

/-- The Phantom `broadcastTransaction` trace is one POST of the JSON-RPC
broadcast body. -/
lemma phantom_broadcast_trace (env : Phantom.Env) (tx : List Nat) :
    (Phantom.broadcastTransaction env tx).2
      = [Event.post (NolusTx.broadcastBody env.now tx)] := by
  rw [Phantom.broadcastTransaction]
  split <;> rfl

/-- The one message a first-script Phantom run hands to the wallet is the
SignDoc built from the account data fetched in that same run. -/
lemma phantom_signed_eq (env : Phantom.Env) (t a m : Option String)
    (ga : NolusAddressResult) (acct : AccountData) (trg trf : List Event)
    (hga : Phantom.getAddress env = (.ok ga, trg))
    (hfa : Phantom.fetchAccountInfo env ga.bech32Addr = (.ok acct, trf)) :
    signedOf (Phantom.sendTransaction env t a m).2
      = [(NolusTx.signDoc
          ((NolusTx.txBody ga.bech32Addr (jsOr t ga.bech32Addr) (jsOr a "1000000")
            (jsOr m "phantom-ed25519-test")).encode)
          ((NolusTx.authInfo ga.pubkeyAnyTypeUrl ga.pubkeyAnyValue
            acct.sequence).encode)
          acct.accountNumber).encode] := by
  have hgt := (show trg = (Phantom.getAddress env).2 by rw [hga]) ▸
    phantom_getAddress_trace env
  have hft : trf = [Event.getAccount ga.bech32Addr] :=
    (show trf = (Phantom.fetchAccountInfo env ga.bech32Addr).2 by rw [hfa]) ▸
      phantom_fetch_trace env ga.bech32Addr
  simp only [Phantom.sendTransaction, hga, hfa]
  split
  case _ hsig => rcases hgt with h | h <;> simp [h, hft]
  case _ sig hsig =>
    split
    case _ e trB heqB =>
      obtain ⟨tx, hb⟩ : ∃ tx, trB = [Event.post (NolusTx.broadcastBody env.now tx)] :=
        ⟨_, (show trB = (Phantom.broadcastTransaction env _).2 by rw [heqB]) ▸
          phantom_broadcast_trace env _⟩
      rcases hgt with h | h <;> simp [h, hft, hb]
    case _ r trB heqB =>
      obtain ⟨tx, hb⟩ : ∃ tx, trB = [Event.post (NolusTx.broadcastBody env.now tx)] :=
        ⟨_, (show trB = (Phantom.broadcastTransaction env _).2 by rw [heqB]) ▸
          phantom_broadcast_trace env _⟩
      split
      case _ h0 => rcases hgt with h | h <;> simp [h, hft, hb]
      case _ h0 => rcases hgt with h | h <;> simp [h, hft, hb]

/-- C9: with `toAddress` omitted the recipient defaults to the sender's own
derived bech32 address (a self-send); with the amount omitted it defaults to
`"1000000"`; the fee and gas limit are constants independent of the
arguments — fee `"500"` with gas limit 200000 in the Phantom and Solflare
scripts, fee `"5000"` with gas limit 200000 in the MetaMask script (both in
its JSON sign document and in its protobuf `AuthInfo`). -/
theorem c9_argument_defaults
    (env : Solfare.Env) (m : Option String)
    (ga : NolusAddressResult) (acct : AccountData) (trg trf : List Event)
    (penv : Phantom.Env) (mp : Option String)
    (gap : NolusAddressResult) (acctp : AccountData) (trgp trfp : List Event)
    (hga : Solfare.getAddress env = (.ok ga, trg))
    (hfa : Solfare.fetchAccountInfo env ga.bech32Addr = (.ok acct, trf))
    (hgap : Phantom.getAddress penv = (.ok gap, trgp))
    (hfap : Phantom.fetchAccountInfo penv gap.bech32Addr = (.ok acctp, trfp)) :
    signedOf (Solfare.sendTransaction env none none m).2
      = [(NolusTx.signDoc
          ((NolusTx.txBody ga.bech32Addr ga.bech32Addr "1000000"
            (jsOr m "solflare-ed25519-test")).encode)
          ((NolusTx.authInfo ga.pubkeyAnyTypeUrl ga.pubkeyAnyValue
            acct.sequence).encode)
          acct.accountNumber).encode]
    ∧ signedOf (Phantom.sendTransaction penv none none mp).2
      = [(NolusTx.signDoc
          ((NolusTx.txBody gap.bech32Addr gap.bech32Addr "1000000"
            (jsOr mp "phantom-ed25519-test")).encode)
          ((NolusTx.authInfo gap.pubkeyAnyTypeUrl gap.pubkeyAnyValue
            acctp.sequence).encode)
          acctp.accountNumber).encode]
    ∧ NolusTx.feeAmount = "500" ∧ NolusTx.gasLimit = 200000
    ∧ (∀ tu v s, (NolusTx.authInfo tu v s).fee
        = some { amount := [{ denom := "unls", amount := "500" }]
                 gasLimit := 200000, payer := "", granter := "" })
    ∧ (∀ pka s, (Metamask.authInfo pka s).fee
        = some { amount := [{ denom := "untrn", amount := "5000" }]
                 gasLimit := 200000, payer := "", granter := "" })
    ∧ (∀ an seq addr az mz,
        ((((Metamask.exactSignDoc an seq addr none az mz).get "msgs").bind
          (fun j => j.idx 0)).bind (fun j => j.get "value")).bind
            (fun j => j.get "to_address") = some (.str addr))
    ∧ (∀ an seq addr tz mz,
        (((((Metamask.exactSignDoc an seq addr tz none mz).get "msgs").bind
          (fun j => j.idx 0)).bind (fun j => j.get "value")).bind
            (fun j => j.get "amount")).bind (fun j => j.idx 0)
          = some (.obj [("amount", .str "1000000"), ("denom", .str "untrn")]))
    ∧ (∀ an seq addr tz az mz,
        (Metamask.exactSignDoc an seq addr tz az mz).get "fee"
          = some (.obj [("amount", .arr [.obj [("amount", .str "5000"),
              ("denom", .str "untrn")]]), ("gas", .str "200000")])) :=
  ⟨solfare_signed_eq env none none m ga acct trg trf hga hfa,
    phantom_signed_eq penv none none mp gap acctp trgp trfp hgap hfap,
    rfl, rfl, fun _ _ _ => rfl, fun _ _ => rfl,
    fun _ _ _ _ _ => rfl, fun _ _ _ _ _ => rfl, fun _ _ _ _ _ _ => rfl⟩

/-- Witness for C9 on the concrete environments. -/
theorem c9_argument_defaults_witness :
    Solfare.getAddress envS0 = (.ok ga0, [Event.connect]) ∧
      Phantom.getAddress envP0 = (.ok ga0, [Event.connect]) ∧
      signedOf (Solfare.sendTransaction envS0 none none none).2
        = [(NolusTx.signDoc
            ((NolusTx.txBody ga0.bech32Addr ga0.bech32Addr "1000000"
              (jsOr none "solflare-ed25519-test")).encode)
            ((NolusTx.authInfo ga0.pubkeyAnyTypeUrl ga0.pubkeyAnyValue
              acct0.sequence).encode)
            acct0.accountNumber).encode] :=
  ⟨rfl, rfl,
    (c9_argument_defaults envS0 none ga0 acct0
      [Event.connect] [Event.getAccount ga0.bech32Addr]
      envP0 none ga0 acct0
      [Event.connect] [Event.getAccount ga0.bech32Addr]
      rfl rfl rfl rfl).1⟩

/-- A Solflare run whose wallet signs broadcasts exactly one POST: the
JSON-RPC envelope of the `TxRaw` built from the fetched account data. -/
lemma solfare_posts_eq (env : Solfare.Env) (t a m : Option String)
    (ga : NolusAddressResult) (acct : AccountData) (trg trf : List Event)
    (sig0 : List Nat)
    (hga : Solfare.getAddress env = (.ok ga, trg))
    (hfa : Solfare.fetchAccountInfo env ga.bech32Addr = (.ok acct, trf))
    (hsig : env.sign = fun _ => some sig0) :
    postsOf (Solfare.sendTransaction env t a m).2
      = [NolusTx.broadcastBody env.now (TxRaw.encode
          { bodyBytes := (NolusTx.txBody ga.bech32Addr (jsOr t ga.bech32Addr)
              (jsOr a "1000000") (jsOr m "solflare-ed25519-test")).encode
            authInfoBytes := (NolusTx.authInfo ga.pubkeyAnyTypeUrl
              ga.pubkeyAnyValue acct.sequence).encode
            signatures := [sig0] })] := by
  have hgt := (show trg = (Solfare.getAddress env).2 by rw [hga]) ▸
    solfare_getAddress_trace env
  have hft : trf = [Event.getAccount ga.bech32Addr] :=
    (show trf = (Solfare.fetchAccountInfo env ga.bech32Addr).2 by rw [hfa]) ▸
      solfare_fetch_trace env ga.bech32Addr
  simp only [Solfare.sendTransaction, hga, hfa, hsig]
  split
  case _ e trB heqB =>
    have hb : trB = [Event.post (NolusTx.broadcastBody env.now _)] :=
      (show trB = (Solfare.broadcastTransaction env _).2 by rw [heqB]) ▸
        solfare_broadcast_trace env _
    rcases hgt with h | h <;> simp [h, hft, hb]
  case _ r trB heqB =>
    have hb : trB = [Event.post (NolusTx.broadcastBody env.now _)] :=
      (show trB = (Solfare.broadcastTransaction env _).2 by rw [heqB]) ▸
        solfare_broadcast_trace env _
    split
    case _ h0 => rcases hgt with h | h <;> simp [h, hft, hb]
    case _ h0 => rcases hgt with h | h <;> simp [h, hft, hb]
/-- C8: when the node reports no account for the derived address,
`fetchAccountInfo` returns account number 0 and sequence 0 instead of
throwing (in all three scripts), and `sendTransaction` proceeds to build,
sign and broadcast a transaction using those zero values. -/
theorem c8_missing_account_zero_defaults
    (env : Solfare.Env) (pk sig0 : List Nat) (t a m : Option String)
    (penv : Phantom.Env) (menv : Metamask.Env)
    (hs1 : env.isSolflare = true) (hs2 : env.connectOk = true)
    (hs3 : env.publicKey = some pk)
    (hacc : env.account = none) (herr : env.accountErr = none)
    (hsig : env.sign = fun msg => some sig0)
    (hpacc : penv.account = none) (hperr : penv.accountErr = none)
    (hmacc : menv.account = none) (hmerr : menv.accountErr = none) :
    (∀ addr, Solfare.fetchAccountInfo env addr
      = (.ok { accountNumber := 0, sequence := 0 }, [Event.getAccount addr]))
    ∧ (∀ addr, Phantom.fetchAccountInfo penv addr
      = (.ok { accountNumber := 0, sequence := 0 }, [Event.getAccount addr]))
    ∧ (∀ addr, Metamask.fetchAccountInfo menv addr
      = (.ok { accountNumber := 0, sequence := 0 }, [Event.getAccount addr]))
    ∧ signedOf (Solfare.sendTransaction env t a m).2
      = [(NolusTx.signDoc
          ((NolusTx.txBody (specNolusAddress pk) (jsOr t (specNolusAddress pk))
            (jsOr a "1000000") (jsOr m "solflare-ed25519-test")).encode)
          ((NolusTx.authInfo "/cosmos.crypto.ed25519.PubKey"
            (toBase64 (PubKeyProto.encode pk)) 0).encode)
          0).encode]
    ∧ postsOf (Solfare.sendTransaction env t a m).2
      = [NolusTx.broadcastBody env.now (TxRaw.encode
          { bodyBytes := (NolusTx.txBody (specNolusAddress pk)
              (jsOr t (specNolusAddress pk)) (jsOr a "1000000")
              (jsOr m "solflare-ed25519-test")).encode
            authInfoBytes := (NolusTx.authInfo "/cosmos.crypto.ed25519.PubKey"
              (toBase64 (PubKeyProto.encode pk)) 0).encode
            signatures := [sig0] })] := by
  have hga : Solfare.getAddress env =
      (.ok { pubkeyAnyTypeUrl := "/cosmos.crypto.ed25519.PubKey"
             pubkeyAnyValue := toBase64 (PubKeyProto.encode pk)
             bech32Addr := specNolusAddress pk
             ed25519PublicKey := pk }, [Event.connect]) := by
    rw [Solfare.getAddress, hs1, hs2, hs3]
    simp [specNolusAddress, NolusTx.addressHrp]
  have hfaS : ∀ addr, Solfare.fetchAccountInfo env addr
      = (.ok { accountNumber := 0, sequence := 0 }, [Event.getAccount addr]) := by
    intro addr
    rw [Solfare.fetchAccountInfo, herr, hacc]
  refine ⟨hfaS, ?_, ?_, ?_, ?_⟩
  · intro addr
    rw [Phantom.fetchAccountInfo, hperr, hpacc]
  · intro addr
    rw [Metamask.fetchAccountInfo, hmerr, hmacc]
  · have h := solfare_signed_eq env t a m _ _ _ _ hga (hfaS _)
    simpa using h
  · have h := solfare_posts_eq env t a m _ _ _ _ sig0 hga (hfaS _) hsig
    simpa using h

/-- Witness for C8 on the concrete environments with missing accounts. -/
theorem c8_missing_account_zero_defaults_witness :
    envS8.account = none ∧ envP8.account = none ∧ envM8.account = none ∧
      ((∀ addr, Solfare.fetchAccountInfo envS8 addr
        = (.ok { accountNumber := 0, sequence := 0 }, [Event.getAccount addr]))
      ∧ (∀ addr, Phantom.fetchAccountInfo envP8 addr
        = (.ok { accountNumber := 0, sequence := 0 }, [Event.getAccount addr]))
      ∧ (∀ addr, Metamask.fetchAccountInfo envM8 addr
        = (.ok { accountNumber := 0, sequence := 0 }, [Event.getAccount addr]))
      ∧ signedOf (Solfare.sendTransaction envS8 none none none).2
        = [(NolusTx.signDoc
            ((NolusTx.txBody (specNolusAddress pk0) (jsOr none (specNolusAddress pk0))
              (jsOr none "1000000") (jsOr none "solflare-ed25519-test")).encode)
            ((NolusTx.authInfo "/cosmos.crypto.ed25519.PubKey"
              (toBase64 (PubKeyProto.encode pk0)) 0).encode)
            0).encode]
      ∧ postsOf (Solfare.sendTransaction envS8 none none none).2
        = [NolusTx.broadcastBody envS8.now (TxRaw.encode
            { bodyBytes := (NolusTx.txBody (specNolusAddress pk0)
                (jsOr none (specNolusAddress pk0)) (jsOr none "1000000")
                (jsOr none "solflare-ed25519-test")).encode
              authInfoBytes := (NolusTx.authInfo "/cosmos.crypto.ed25519.PubKey"
                (toBase64 (PubKeyProto.encode pk0)) 0).encode
              signatures := [[7]] })]) :=
  ⟨rfl, rfl, rfl,
    c8_missing_account_zero_defaults envS8 pk0 [7] none none none envP8 envM8
      rfl rfl rfl rfl rfl rfl rfl rfl rfl rfl⟩

/-- The character count of a string is its length. -/
lemma strLength_data (s : String) : s.data.length = s.length := rfl

/-- The script's `sigResult.slice(2, -2)` strips exactly the `0x` prefix
and the final (recovery) byte's two hex characters. -/
lemma jsStrSlice_two_minusTwo (s : String) :
    jsStrSlice s 2 (-2) = specStripSignature s := by
  simp only [jsStrSlice, specStripSignature]
  rw [List.drop_reverse, List.reverse_reverse]
  norm_num
  by_cases h : 2 ≤ s.length
  · have ha : ((2 : Int) ⊓ (s.length : Int)).toNat = 2 := by omega
    have hb : (((s.length : Int) + -2) ⊔ 0).toNat = s.length - 2 := by omega
    rw [ha, hb]
  · have ha : ((2 : Int) ⊓ (s.length : Int)).toNat = s.length := by omega
    have hb : (((s.length : Int) + -2) ⊔ 0).toNat = 0 := by omega
    rw [ha, hb]
    have hd : s.data.drop 2 = [] :=
      List.drop_eq_nil_of_le (by rw [strLength_data]; omega)
    simp [hd]
/-- A MetaMask run whose wallet signs broadcasts exactly one POST: the
JSON-RPC envelope of the `TxRaw` carrying the stripped signature. -/
lemma metamask_posts_eq (env : Metamask.Env) (t a m : Option String)
    (ga : Metamask.AddressResult) (acct : AccountData) (trg trf : List Event)
    (sigResult : String) (sig : List Nat)
    (hga : Metamask.getAddress env = (.ok ga, trg))
    (hfa : Metamask.fetchAccountInfo env ga.bech32Addr = (.ok acct, trf))
    (hps : env.personalSign ("0x" ++ toHex (utf8 (stringify4 (Metamask.exactSignDoc
      acct.accountNumber acct.sequence ga.bech32Addr t a m)))) = some sigResult)
    (hhex : fromHex (jsStrSlice sigResult 2 (-2)) = some sig) :
    postsOf (Metamask.sendTransaction env t a m).2
      = [Metamask.broadcastBody env.now (TxRaw.encode
          { bodyBytes := (Metamask.txBody ga.bech32Addr (jsOr t ga.bech32Addr)
              (jsOr a "1000000") (jsOr m "Neutron Network transaction")).encode
            authInfoBytes := (Metamask.authInfo ga.pubkeyAny acct.sequence).encode
            signatures := [sig] })] := by
  have hgt := (show trg = (Metamask.getAddress env).2 by rw [hga]) ▸
    metamask_getAddress_trace env
  have hft : trf = [Event.getAccount ga.bech32Addr] :=
    (show trf = (Metamask.fetchAccountInfo env ga.bech32Addr).2 by rw [hfa]) ▸
      metamask_fetch_trace env ga.bech32Addr
  simp only [Metamask.sendTransaction, hga, hfa, hps, hhex]
  split
  case _ msg hrpc => rcases hgt with h | h <;> simp [h, hft]
  case _ r hrpc =>
    split
    case _ h0 => rcases hgt with h | h <;> simp [h, hft]
    case _ h0 => rcases hgt with h | h <;> simp [h, hft]

/-- C4: in the MetaMask variant the signed payload is the hand-serialized
JSON document (`JSON.stringify` with 4-space indentation, sent to
`personal_sign` as `0x` plus its hex, EIP-191 prefixing being
`personal_sign`'s own documented behaviour) in which each coin object lists
`amount` before `denom`; the resulting signature, stripped of its `0x`
prefix and final recovery byte, is placed into `TxRaw`, while `AuthInfo`
declares `SIGN_MODE_EIP_191` (value 191). -/
theorem c4_metamask_eip191_payload
    (env : Metamask.Env) (t a m : Option String)
    (ga : Metamask.AddressResult) (acct : AccountData) (trg trf : List Event)
    (sigResult : String) (sig : List Nat)
    (hga : Metamask.getAddress env = (.ok ga, trg))
    (hfa : Metamask.fetchAccountInfo env ga.bech32Addr = (.ok acct, trf))
    (hps : env.personalSign ("0x" ++ toHex (utf8 (stringify4 (Metamask.exactSignDoc
      acct.accountNumber acct.sequence ga.bech32Addr t a m)))) = some sigResult)
    (hhex : fromHex (jsStrSlice sigResult 2 (-2)) = some sig) :
    personalSignedOf (Metamask.sendTransaction env t a m).2
      = personalSignedOf trg ++
        ["0x" ++ toHex (utf8 (stringify4 (Metamask.exactSignDoc
          acct.accountNumber acct.sequence ga.bech32Addr t a m)))]
    ∧ (∀ an seq addr tz az mz,
        ((((Metamask.exactSignDoc an seq addr tz az mz).get "fee").bind
          (fun j => j.get "amount")).bind (fun j => j.idx 0)).map Json.objKeys
          = some ["amount", "denom"])
    ∧ (∀ an seq addr tz az mz,
        ((((((Metamask.exactSignDoc an seq addr tz az mz).get "msgs").bind
          (fun j => j.idx 0)).bind (fun j => j.get "value")).bind
          (fun j => j.get "amount")).bind (fun j => j.idx 0)).map Json.objKeys
          = some ["amount", "denom"])
    ∧ jsStrSlice sigResult 2 (-2) = specStripSignature sigResult
    ∧ postsOf (Metamask.sendTransaction env t a m).2
      = [Metamask.broadcastBody env.now (TxRaw.encode
          { bodyBytes := (Metamask.txBody ga.bech32Addr (jsOr t ga.bech32Addr)
              (jsOr a "1000000") (jsOr m "Neutron Network transaction")).encode
            authInfoBytes := (Metamask.authInfo ga.pubkeyAny acct.sequence).encode
            signatures := [sig] })]
    ∧ (∀ pka s, (Metamask.authInfo pka s).signerInfos.map (fun si => si.modeInfo)
        = [some { single := some { mode := SIGN_MODE_EIP_191 } }])
    ∧ SIGN_MODE_EIP_191 = 191 :=
  ⟨metamask_personalSigned_eq env t a m ga acct trg trf hga hfa,
    fun _ _ _ _ _ _ => rfl, fun _ _ _ _ _ _ => rfl,
    jsStrSlice_two_minusTwo sigResult,
    metamask_posts_eq env t a m ga acct trg trf sigResult sig hga hfa hps hhex,
    fun _ _ => rfl, rfl⟩

/-- Witness for C4 on the concrete environment `envM0`. -/
theorem c4_metamask_eip191_payload_witness :
    Metamask.getAddress envM0
      = (.ok gaM0, [Event.connect,
          Event.personalSign Metamask.pubkeyGenMessage "0xeeff"]) ∧
    fromHex (jsStrSlice "0xaabbcc" 2 (-2)) = some [170, 187] ∧
    (personalSignedOf (Metamask.sendTransaction envM0 none none none).2
      = personalSignedOf [Event.connect,
          Event.personalSign Metamask.pubkeyGenMessage "0xeeff"] ++
        ["0x" ++ toHex (utf8 (stringify4 (Metamask.exactSignDoc
          acct0.accountNumber acct0.sequence gaM0.bech32Addr none none none)))]
      ∧ jsStrSlice "0xaabbcc" 2 (-2) = specStripSignature "0xaabbcc"
      ∧ postsOf (Metamask.sendTransaction envM0 none none none).2
        = [Metamask.broadcastBody envM0.now (TxRaw.encode
            { bodyBytes := (Metamask.txBody gaM0.bech32Addr
                (jsOr none gaM0.bech32Addr) (jsOr none "1000000")
                (jsOr none "Neutron Network transaction")).encode
              authInfoBytes := (Metamask.authInfo gaM0.pubkeyAny
                acct0.sequence).encode
              signatures := [[170, 187]] })]) :=
  ⟨rfl, rfl,
    (c4_metamask_eip191_payload envM0 none none none gaM0 acct0
      [Event.connect, Event.personalSign Metamask.pubkeyGenMessage "0xeeff"]
      [Event.getAccount gaM0.bech32Addr] "0xaabbcc" [170, 187]
      rfl rfl rfl rfl).1,
    (c4_metamask_eip191_payload envM0 none none none gaM0 acct0
      [Event.connect, Event.personalSign Metamask.pubkeyGenMessage "0xeeff"]
      [Event.getAccount gaM0.bech32Addr] "0xaabbcc" [170, 187]
      rfl rfl rfl rfl).2.2.2.1,
    (c4_metamask_eip191_payload envM0 none none none gaM0 acct0
      [Event.connect, Event.personalSign Metamask.pubkeyGenMessage "0xeeff"]
      [Event.getAccount gaM0.bech32Addr] "0xaabbcc" [170, 187]
      rfl rfl rfl rfl).2.2.2.2.1⟩

set_option maxRecDepth 10000 in
/-- C2: the claim that every Phantom/Solflare `sendTransaction` passes
exactly the protobuf-encoded SignDoc bytes to the wallet's `signMessage`
fails on the second script of `phantom_not_working.ts`: in the `envP80` run
the first Phantom script signs the SignDoc bytes themselves, but the second
script signs `TextEncoder.encode(Buffer.from(signBytes).toString())` — a
lossy UTF-8 decode/re-encode of them — which differs from the SignDoc bytes
(the raw `0x80` key bytes inside `authInfoBytes` are not valid UTF-8 and
become U+FFFD). -/
theorem c2_phantom2_signs_reencoded_bytes :
    signedOf (Phantom.sendTransaction envP80 none none none).2 = [signBytes80]
    ∧ signedOf (Phantom2.sendTransaction envP80 none none none).2
        = [Phantom2.encodedMessage signBytes80]
    ∧ Phantom2.encodedMessage signBytes80 ≠ signBytes80 :=
  ⟨by decide, by decide, by decide⟩
